import Mathlib

/-!
# dds-agent: the call relay bridge of `src/index.js`

A shallow embedding of the message handlers of the media-stream route
(`connection.on("message")`, `openAiWs.on("message")`, `connection.on("close")`), of the
session map and of the post-call pipeline (`makeChatGPTCompletion`, `sendToWebhook`,
`processTranscriptAndSend`), followed by the properties proved about them.

Modelling conventions.

* A JavaScript value handled by the program is either `undefined` or a value produced by
  `JSON.parse`; `Json` is the tree of such a value.  Numbers are modelled by integers: the
  program only tests a number for truthiness and passes it on.
* An operation that can throw returns `Except JsError`; a handler body is a function of an
  explicit `World` (session object, messages sent on the two sockets, HTTP requests issued,
  console output) whose result records whether it threw, and the `World` at that point: what
  was mutated before a `throw` stays mutated.
* Library functions that are not part of the repository are parameters, collected in `Env`
  (`JSON.parse`, number formatting, `Buffer.from` on a non-string), or modelled after their
  documentation (`String.prototype.trim`, the base64 codec of `Buffer`).
* A message handed to `send(JSON.stringify(x))` is recorded as the JSON value that text denotes,
  and a raw socket message is the text `JSON.parse` is applied to.
* The two HTTP routes, the opening of the speech-API socket and its one-time session update
  (lines 50-67, 82-117) take no part in the properties below and are left out; the state of
  that socket enters `connection.on("message")` as the outcome of its `readyState` test.

The file has two halves: the definitions (the program, then the vocabulary of the
specification and sample inputs), and the theorems (summaries of the handlers, then the
properties C1 to C10 in order).
-/

namespace DdsAgent

/-! ## JavaScript values -/

/-- A value produced by JSON.parse. The fields of an object are kept in an association list;
a property read takes the first binding of a key. -/
inductive Json where
  | null
  | bool (b : Bool)
  | num (n : Int)
  | str (s : String)
  | arr (xs : List Json)
  | obj (kvs : List (String × Json))
  deriving Repr, Inhabited

mutual
/-- Decidable equality of JSON values. -/
def Json.decEq : (a b : Json) → Decidable (a = b)
  | .null, .null => isTrue rfl
  | .null, .bool _ => isFalse (fun e => Json.noConfusion e)
  | .null, .num _ => isFalse (fun e => Json.noConfusion e)
  | .null, .str _ => isFalse (fun e => Json.noConfusion e)
  | .null, .arr _ => isFalse (fun e => Json.noConfusion e)
  | .null, .obj _ => isFalse (fun e => Json.noConfusion e)
  | .bool _, .null => isFalse (fun e => Json.noConfusion e)
  | .bool x, .bool y =>
    if h : x = y then isTrue (congrArg Json.bool h) else isFalse (fun e => h (Json.bool.inj e))
  | .bool _, .num _ => isFalse (fun e => Json.noConfusion e)
  | .bool _, .str _ => isFalse (fun e => Json.noConfusion e)
  | .bool _, .arr _ => isFalse (fun e => Json.noConfusion e)
  | .bool _, .obj _ => isFalse (fun e => Json.noConfusion e)
  | .num _, .null => isFalse (fun e => Json.noConfusion e)
  | .num _, .bool _ => isFalse (fun e => Json.noConfusion e)
  | .num x, .num y =>
    if h : x = y then isTrue (congrArg Json.num h) else isFalse (fun e => h (Json.num.inj e))
  | .num _, .str _ => isFalse (fun e => Json.noConfusion e)
  | .num _, .arr _ => isFalse (fun e => Json.noConfusion e)
  | .num _, .obj _ => isFalse (fun e => Json.noConfusion e)
  | .str _, .null => isFalse (fun e => Json.noConfusion e)
  | .str _, .bool _ => isFalse (fun e => Json.noConfusion e)
  | .str _, .num _ => isFalse (fun e => Json.noConfusion e)
  | .str x, .str y =>
    if h : x = y then isTrue (congrArg Json.str h) else isFalse (fun e => h (Json.str.inj e))
  | .str _, .arr _ => isFalse (fun e => Json.noConfusion e)
  | .str _, .obj _ => isFalse (fun e => Json.noConfusion e)
  | .arr _, .null => isFalse (fun e => Json.noConfusion e)
  | .arr _, .bool _ => isFalse (fun e => Json.noConfusion e)
  | .arr _, .num _ => isFalse (fun e => Json.noConfusion e)
  | .arr _, .str _ => isFalse (fun e => Json.noConfusion e)
  | .arr x, .arr y =>
    match Json.decEqList x y with
    | isTrue h => isTrue (congrArg Json.arr h)
    | isFalse h => isFalse (fun e => h (Json.arr.inj e))
  | .arr _, .obj _ => isFalse (fun e => Json.noConfusion e)
  | .obj _, .null => isFalse (fun e => Json.noConfusion e)
  | .obj _, .bool _ => isFalse (fun e => Json.noConfusion e)
  | .obj _, .num _ => isFalse (fun e => Json.noConfusion e)
  | .obj _, .str _ => isFalse (fun e => Json.noConfusion e)
  | .obj _, .arr _ => isFalse (fun e => Json.noConfusion e)
  | .obj x, .obj y =>
    match Json.decEqFields x y with
    | isTrue h => isTrue (congrArg Json.obj h)
    | isFalse h => isFalse (fun e => h (Json.obj.inj e))
/-- Decidable equality of lists of JSON values. -/
def Json.decEqList : (a b : List Json) → Decidable (a = b)
  | [], [] => isTrue rfl
  | [], _ :: _ => isFalse (fun e => List.noConfusion e)
  | _ :: _, [] => isFalse (fun e => List.noConfusion e)
  | x :: xs, y :: ys =>
    match Json.decEq x y, Json.decEqList xs ys with
    | isTrue h, isTrue t => isTrue (congrArg₂ List.cons h t)
    | isFalse h, _ => isFalse (fun e => h (List.cons.inj e).1)
    | _, isFalse t => isFalse (fun e => t (List.cons.inj e).2)
/-- Decidable equality of the field lists of JSON objects. -/
def Json.decEqFields : (a b : List (String × Json)) → Decidable (a = b)
  | [], [] => isTrue rfl
  | [], _ :: _ => isFalse (fun e => List.noConfusion e)
  | _ :: _, [] => isFalse (fun e => List.noConfusion e)
  | (k, x) :: xs, (l, y) :: ys =>
    if hk : k = l then
      match Json.decEq x y, Json.decEqFields xs ys with
      | isTrue h, isTrue t => isTrue (by rw [hk, h, t])
      | isFalse h, _ => isFalse (fun e => h (Prod.mk.inj (List.cons.inj e).1).2)
      | _, isFalse t => isFalse (fun e => t (List.cons.inj e).2)
    else isFalse (fun e => hk (Prod.mk.inj (List.cons.inj e).1).1)
end

instance : DecidableEq Json := Json.decEq

/-- A JavaScript value held in a variable or property of the program. -/
inductive Val where
  | undefined
  | json (j : Json)
  deriving DecidableEq, Repr, Inhabited

/-- The exceptions the program can meet. -/
inductive JsError where
  | typeError
  | syntaxError
  | fetchError
  deriving DecidableEq, Repr, Inhabited

instance {ε α : Type} [DecidableEq ε] [DecidableEq α] : DecidableEq (Except ε α)
  | .ok a, .ok b => if h : a = b then isTrue (congrArg Except.ok h) else isFalse (fun e => h (Except.ok.inj e))
  | .error a, .error b =>
    if h : a = b then isTrue (congrArg Except.error h) else isFalse (fun e => h (Except.error.inj e))
  | .ok _, .error _ => isFalse (fun e => Except.noConfusion e)
  | .error _, .ok _ => isFalse (fun e => Except.noConfusion e)

/-- Library functions used by `src/index.js` that are not part of the repository. -/
structure Env where
  /-- `JSON.parse(v)`: `none` when it throws a SyntaxError. -/
  JSON_parse : Val → Option Json
  /-- `Number.prototype.toString` as used by a template literal. -/
  numberToString : Int → String
  /-- `Buffer.from(v, "base64")` for an array or object `v`: the bytes, `none` when it throws. -/
  bufferFromObject : Json → Option (List Nat)

/-- ToBoolean. -/
def truthy : Val → Bool
  | .undefined => false
  | .json .null => false
  | .json (.bool b) => b
  | .json (.num n) => n != 0
  | .json (.str s) => s != ""
  | .json (.arr _) => true
  | .json (.obj _) => true

/-- The property read `v.k` (or `v[k]`), for the keys the program reads by name: `event`, `media`,
`payload`, `start`, `streamSid`, `type`, `transcript`, `response`, `output`, `content`, `delta`,
`choices`, `message`. None of them is inherited from a prototype, so the read yields the own
property of an object and `undefined` on an array, string, number or boolean; on `null` and
`undefined` it throws a TypeError. -/
def getProp (v : Val) (k : String) : Except JsError Val :=
  match v with
  | .undefined => .error .typeError
  | .json .null => .error .typeError
  | .json (.obj kvs) =>
    match kvs.lookup k with
    | some x => .ok (.json x)
    | none => .ok .undefined
  | .json _ => .ok .undefined

/-- The optional read `v?.k`: `undefined` when `v` is `null` or `undefined`. -/
def optProp (v : Val) (k : String) : Except JsError Val :=
  match v with
  | .undefined => .ok .undefined
  | .json .null => .ok .undefined
  | _ => getProp v k

/-- The indexed read `v[0]`: the first element of an array, the first character of a string,
the property `0` of an object, `undefined` on a number or boolean, a TypeError on `null` and
`undefined`. -/
def getIndex0 (v : Val) : Except JsError Val :=
  match v with
  | .undefined => .error .typeError
  | .json .null => .error .typeError
  | .json (.arr []) => .ok .undefined
  | .json (.arr (x :: _)) => .ok (.json x)
  | .json (.str s) =>
    match s.data with
    | [] => .ok .undefined
    | c :: _ => .ok (.json (.str (String.mk [c])))
  | .json (.obj kvs) =>
    match kvs.lookup "0" with
    | some x => .ok (.json x)
    | none => .ok .undefined
  | .json _ => .ok .undefined

/-- The comparison `v === s` against a string literal. -/
def strictEqStr (v : Val) (s : String) : Bool :=
  match v with
  | .json (.str t) => t == s
  | _ => false

/-- `Array.prototype.includes` on an array of string literals. -/
def includesStr (xs : List String) (v : Val) : Bool :=
  match v with
  | .json (.str t) => xs.contains t
  | _ => false

/-- White space and line terminators of ECMAScript, the characters `trim` strips. -/
def isJsWhiteSpace (c : Char) : Bool :=
  let n := c.toNat
  n == 0x09 || n == 0x0A || n == 0x0B || n == 0x0C || n == 0x0D || n == 0x20 || n == 0xA0 ||
  n == 0x1680 || (0x2000 ≤ n && n ≤ 0x200A) || n == 0x2028 || n == 0x2029 || n == 0x202F ||
  n == 0x205F || n == 0x3000 || n == 0xFEFF

/-- `String.prototype.trim`. -/
def String_trim (s : String) : String :=
  String.mk ((s.data.dropWhile isJsWhiteSpace).reverse.dropWhile isJsWhiteSpace).reverse

/-- The method call `v.trim()`: only a string has a callable `trim`. -/
def callTrim (v : Val) : Except JsError String :=
  match v with
  | .json (.str s) => .ok (String_trim s)
  | _ => .error .typeError

/-- Whether an object has an own property `k`. -/
def hasOwn (kvs : List (String × Json)) (k : String) : Bool :=
  (kvs.lookup k).isSome

mutual
/-- ToString of a JSON value, as applied by a template literal. An object answers
`[object Object]` through Object.prototype.toString unless an own (hence non-callable)
`toString` property shadows it, in which case the conversion throws a TypeError; an array is
joined with commas. -/
def Json.toStringJS (env : Env) : Json → Except JsError String
  | .null => .ok "null"
  | .bool b => .ok (if b then "true" else "false")
  | .num n => .ok (env.numberToString n)
  | .str s => .ok s
  | .arr xs => (Json.joinJS env xs).map (fun parts => ",".intercalate parts)
  | .obj kvs => if hasOwn kvs "toString" then .error .typeError else .ok "[object Object]"
/-- The element strings of `Array.prototype.join`: `null` gives the empty string. -/
def Json.joinJS (env : Env) : List Json → Except JsError (List String)
  | [] => .ok []
  | x :: xs =>
    let first : Except JsError String :=
      match x with
      | .null => .ok ""
      | _ => Json.toStringJS env x
    match first, Json.joinJS env xs with
    | .ok a, .ok b => .ok (a :: b)
    | .error e, _ => .error e
    | _, .error e => .error e
end

/-- ToString of a value. -/
def toStringJS (env : Env) : Val → Except JsError String
  | .undefined => .ok "undefined"
  | .json j => j.toStringJS env

/-- `Array.prototype.find` with the callback `(content) => content.transcript` of line 142: the
first element whose `transcript` is truthy, `undefined` when there is none; reading `transcript`
off a `null` element throws. -/
def findTranscript : List Json → Except JsError Val
  | [] => .ok .undefined
  | x :: xs =>
    match getProp (.json x) "transcript" with
    | .error e => .error e
    | .ok t => if truthy t then .ok (.json x) else findTranscript xs

/-- The call `content?.find((content) => content.transcript)`: skipped on `null` and
`undefined`, Array.prototype.find on an array, a TypeError on anything else (no callable
`find`). -/
def optFindTranscript (content : Val) : Except JsError Val :=
  match content with
  | .undefined => .ok .undefined
  | .json .null => .ok .undefined
  | .json (.arr xs) => findTranscript xs
  | .json _ => .error .typeError

/-- `JSON.stringify` of an object literal whose property values may be `undefined`: such a
property is left out. -/
def stringifyObject (fields : List (String × Val)) : Json :=
  .obj (fields.filterMap (fun kv =>
    match kv.2 with
    | .undefined => none
    | .json j => some (kv.1, j)))

/-! ## The base64 codec of `Buffer`

Line 157 passes the audio through `Buffer.from(delta, "base64").toString("base64")`. `Buffer`
belongs to Node.js, not to the repository; it is modelled here after its documentation and its
decoder: decoding is lenient (the URL-safe digits are accepted, characters that are no digits,
such as white space, are skipped, padding is optional and ends the input) and never fails on a
string; encoding uses the standard alphabet and pads with `=`. -/

/-- The UTF-16 code units of a character. -/
def utf16Units (c : Char) : List Nat :=
  let n := c.toNat
  if n < 0x10000 then [n] else [0xD800 + (n - 0x10000) / 0x400, 0xDC00 + (n - 0x10000) % 0x400]

/-- The value of a base64 digit given as a byte: the standard alphabet, and `-` and `_` of
the URL-safe alphabet. -/
def unbase64 (b : Nat) : Option Nat :=
  if 65 ≤ b ∧ b ≤ 90 then some (b - 65)
  else if 97 ≤ b ∧ b ≤ 122 then some (b - 97 + 26)
  else if 48 ≤ b ∧ b ≤ 57 then some (b - 48 + 52)
  else if b = 43 ∨ b = 45 then some 62
  else if b = 47 ∨ b = 95 then some 63
  else none

/-- The digits read by the decoder: each code unit is narrowed to a byte, a byte that is no
base64 digit is skipped, and the padding character `=` ends the input. -/
def base64Sextets : List Nat → List Nat
  | [] => []
  | u :: us =>
    match unbase64 (u % 256) with
    | some v => v :: base64Sextets us
    | none => if u % 256 = 61 then [] else base64Sextets us

/-- Four digits give three bytes; a final group of three digits gives two bytes, of two digits
one byte, and a single left-over digit none. -/
def sextetsToBytes : List Nat → List Nat
  | a :: b :: c :: d :: rest =>
    (a * 4 + b / 16) :: ((b % 16) * 16 + c / 4) :: ((c % 4) * 64 + d) :: sextetsToBytes rest
  | [a, b, c] => [a * 4 + b / 16, (b % 16) * 16 + c / 4]
  | [a, b] => [a * 4 + b / 16]
  | _ => []

/-- `Buffer.from(s, "base64")` for a string `s`: the decoded bytes. The decoder never throws. -/
def base64Decode (s : String) : List Nat :=
  sextetsToBytes (base64Sextets (s.data.flatMap utf16Units))

/-- The alphabet of the encoder. -/
def base64Alphabet : List Char :=
  "ABCDEFGHIJKLMNOPQRSTUVWXYZabcdefghijklmnopqrstuvwxyz0123456789+/".data

/-- The digit of a value below 64. -/
def base64Char (n : Nat) : Char :=
  base64Alphabet.getD n 'A'

/-- The characters of the base64 encoding of a byte list, padded with `=`. -/
def base64EncodeChars : List Nat → List Char
  | a :: b :: c :: rest =>
    base64Char (a / 4) :: base64Char ((a % 4) * 16 + b / 16) ::
      base64Char ((b % 16) * 4 + c / 64) :: base64Char (c % 64) :: base64EncodeChars rest
  | [a, b] => [base64Char (a / 4), base64Char ((a % 4) * 16 + b / 16), base64Char ((b % 16) * 4), '=']
  | [a] => [base64Char (a / 4), base64Char ((a % 4) * 16), '=', '=']
  | [] => []

/-- `buf.toString("base64")`. -/
def base64Encode (bytes : List Nat) : String :=
  String.mk (base64EncodeChars bytes)

/-- `Buffer.from(v, "base64")` for the truthy values that reach line 157: a string is decoded,
a number or boolean is rejected with a TypeError, an array or object is left to the library. -/
def Buffer_from (env : Env) (v : Val) : Except JsError (List Nat) :=
  match v with
  | .json (.str s) => .ok (base64Decode s)
  | .json (.arr xs) =>
    match env.bufferFromObject (.arr xs) with
    | some bytes => .ok bytes
    | none => .error .typeError
  | .json (.obj kvs) =>
    match env.bufferFromObject (.obj kvs) with
    | some bytes => .ok bytes
    | none => .error .typeError
  | _ => .error .typeError

/-! ## Sessions, effects and the handler monad -/

/-- The session object of lines 76-79. -/
structure Session where
  transcript : String
  streamSid : Val
  deriving DecidableEq, Repr, Inhabited

/-- The object literal of lines 76-79, used when the map has no session for the call. -/
def newSession : Session :=
  { transcript := "", streamSid := .json .null }

/-- A line of console output: whether it went to `console.error`, and its textual part. -/
structure LogEntry where
  isError : Bool
  text : String
  deriving DecidableEq, Repr, Inhabited

/-- A request issued with `fetch`: the URL, the method and the JSON value of the body. -/
structure HttpRequest where
  url : String
  method : String
  body : Json
  deriving DecidableEq, Repr, Inhabited

/-- The answer to a `fetch`: the status, and the body as `response.json()` reads it (`none`
when the body is no JSON text and that promise rejects). -/
structure HttpResponse where
  status : Nat
  body : Option Json
  deriving DecidableEq, Repr, Inhabited

/-- The state of the process and the traces of its effects, each in the order of occurrence.
Session objects live in `heap` and are named by their address; the map `sessions` of line 34
holds addresses, as the JavaScript Map holds references. -/
structure World where
  /-- The session objects, by address. -/
  heap : Nat → Session
  /-- The next unused address. -/
  nextRef : Nat
  /-- The Map `sessions`: call identifier and address of the session object, in insertion order. -/
  sessions : List (String × Nat)
  /-- Messages passed to `openAiWs.send`. -/
  toApi : List Json
  /-- Messages passed to `connection.send`. -/
  toCaller : List Json
  /-- Requests issued with `fetch`. -/
  http : List HttpRequest
  /-- Console output. -/
  log : List LogEntry

/-- The process right after start-up: an empty `sessions` map and no effect yet. -/
def World.initial : World :=
  { heap := fun _ => newSession, nextRef := 0, sessions := [], toApi := [], toCaller := [],
    http := [], log := [] }

/-- The outcome of running a piece of code: a normal completion with a value, or a throw,
each with the world at that point. -/
inductive Res (α : Type) where
  | ok (a : α) (w : World)
  | threw (e : JsError) (w : World)

/-- The world an outcome ends in. -/
def Res.world {α : Type} : Res α → World
  | .ok _ w => w
  | .threw _ w => w

/-- Whether an outcome is a throw. -/
def Res.isThrow {α : Type} : Res α → Bool
  | .ok _ _ => false
  | .threw _ _ => true

/-- Code with effects on the world. -/
def Eff (α : Type) : Type := World → Res α

instance : Monad Eff where
  pure a := fun w => .ok a w
  bind m f := fun w =>
    match m w with
    | .ok a w1 => f a w1
    | .threw e w1 => .threw e w1

/-- An operation without effects, which may throw. -/
def liftExcept {α : Type} (x : Except JsError α) : Eff α := fun w =>
  match x with
  | .ok a => .ok a w
  | .error e => .threw e w

instance : MonadLift (Except JsError) Eff where
  monadLift := liftExcept

/-- The statement `try body catch (error) handler`. -/
def tryCatch {α : Type} (body : Eff α) (handler : JsError → Eff α) : Eff α := fun w =>
  match body w with
  | .ok a w1 => .ok a w1
  | .threw e w1 => handler e w1

/-- The statement `throw e`. -/
def throwJs {α : Type} (e : JsError) : Eff α := fun w => .threw e w

/-- `console.log`, recorded by its textual part. -/
def consoleLog (text : String) : Eff Unit := fun w =>
  .ok () { w with log := w.log ++ [{ isError := false, text := text }] }

/-- `console.error`, recorded by its textual part. -/
def consoleError (text : String) : Eff Unit := fun w =>
  .ok () { w with log := w.log ++ [{ isError := true, text := text }] }

/-- Reading the session object at an address. -/
def readSession (session : Nat) : Eff Session := fun w => .ok (w.heap session) w

/-- The assignment `session.transcript += line`. -/
def appendTranscript (session : Nat) (line : String) : Eff Unit := fun w =>
  let s := w.heap session
  .ok () { w with heap := Function.update w.heap session { s with transcript := s.transcript ++ line } }

/-- The assignment `session.streamSid = v`. -/
def setStreamSid (session : Nat) (v : Val) : Eff Unit := fun w =>
  let s := w.heap session
  .ok () { w with heap := Function.update w.heap session { s with streamSid := v } }

/-- `openAiWs.send(JSON.stringify(msg))` on an open socket. -/
def sendToApi (msg : Json) : Eff Unit := fun w =>
  .ok () { w with toApi := w.toApi ++ [msg] }

/-- `connection.send(JSON.stringify(msg))`. -/
def sendToCaller (msg : Json) : Eff Unit := fun w =>
  .ok () { w with toCaller := w.toCaller ++ [msg] }

/-- Issuing a request with `fetch`. -/
def issueFetch (req : HttpRequest) : Eff Unit := fun w =>
  .ok () { w with http := w.http ++ [req] }

/-- `JSON.parse(v)`. -/
def JSON_parse (env : Env) (v : Val) : Except JsError Json :=
  match env.JSON_parse v with
  | some j => .ok j
  | none => .error .syntaxError

/-! ## The relay handlers (lines 120-199) -/

/-- The event types logged to the console (lines 37-47). -/
def LOG_EVENT_TYPES : List String :=
  [ "response.content.done",
    "rate_limits.updated",
    "response.done",
    "input_audio_buffer.committed",
    "input_audio_buffer.speech_stopped",
    "input_audio_buffer.speech_started",
    "session.created",
    "response.text.done",
    "conversation.item.input_audio_transcription.completed" ]

/-- The expression of lines 141-143,
`response.response.output[0]?.content?.find((content) => content.transcript)?.transcript
|| "Agent message not found"`. -/
def agentMessageOf (response : Val) : Except JsError Val := do
  let r ← getProp response "response"
  let output ← getProp r "output"
  let first ← getIndex0 output
  let content ← optProp first "content"
  let found ← optFindTranscript content
  let transcript ← optProp found "transcript"
  if truthy transcript then pure transcript else pure (.json (.str "Agent message not found"))

/-- The body of the `try` of `openAiWs.on("message")` (lines 122-161); `session` is the
address of the session object the handler closes over. -/
def openAiWs_onMessage_try (env : Env) (sessionId : String) (session : Nat) (data : String) :
    Eff Unit := do
  let response := Val.json (← JSON_parse env (.json (.str data)))
  let type ← getProp response "type"
  if includesStr LOG_EVENT_TYPES type then
    let shown ← toStringJS env type
    consoleLog ("Received event: " ++ shown)
  if strictEqStr type "conversation.item.input_audio_transcription.completed" then
    let transcript ← getProp response "transcript"
    let userMessage ← callTrim transcript
    appendTranscript session ("User: " ++ userMessage ++ "\n")
    consoleLog ("User (" ++ sessionId ++ "): " ++ userMessage)
  if strictEqStr type "response.done" then
    let agentMessage ← agentMessageOf response
    let text ← toStringJS env agentMessage
    appendTranscript session ("Agent: " ++ text ++ "\n")
    consoleLog ("Agent (" ++ sessionId ++ "): " ++ text)
  if strictEqStr type "session.updated" then
    consoleLog "Session updated successfully:"
  if strictEqStr type "response.audio.delta" then
    let delta ← getProp response "delta"
    if truthy delta then
      let bytes ← Buffer_from env delta
      let s ← readSession session
      sendToCaller (stringifyObject
        [ ("event", .json (.str "media")),
          ("streamSid", s.streamSid),
          ("media", .json (.obj [("payload", .str (base64Encode bytes))])) ])

/-- The handler `openAiWs.on("message")` (lines 120-170): whatever the body throws is caught
and reported on the console. -/
def openAiWs_onMessage (env : Env) (sessionId : String) (session : Nat) (data : String) :
    Eff Unit :=
  tryCatch (openAiWs_onMessage_try env sessionId session data)
    (fun _ => consoleError "Error processing OpenAI message:")

/-- The body of the `try` of `connection.on("message")` (lines 175-195); `apiOpen` is the
outcome of the test `openAiWs.readyState === WebSocket.OPEN`. -/
def connection_onMessage_try (env : Env) (session : Nat) (apiOpen : Bool) (message : String) :
    Eff Unit := do
  let data := Val.json (← JSON_parse env (.json (.str message)))
  let event ← getProp data "event"
  if strictEqStr event "media" then
    if apiOpen then
      let media ← getProp data "media"
      let payload ← getProp media "payload"
      sendToApi (stringifyObject
        [ ("type", .json (.str "input_audio_buffer.append")),
          ("audio", payload) ])
  else if strictEqStr event "start" then
    let start ← getProp data "start"
    let streamSid ← getProp start "streamSid"
    setStreamSid session streamSid
    consoleLog "Incoming stream has started"
  else
    consoleLog "Received non-media event:"

/-- The handler `connection.on("message")` (lines 173-199). -/
def connection_onMessage (env : Env) (session : Nat) (apiOpen : Bool) (message : String) :
    Eff Unit :=
  tryCatch (connection_onMessage_try env session apiOpen message)
    (fun _ => consoleError "Error parsing message:")

/-! ## The post-call pipeline (lines 234-343) -/

/-- The webhook address of lines 30-31. -/
def WEBHOOK_URL : String :=
  "https://hook.us2.make.com/hh9edyw1fblx9gibhh8dt7cncbmq9hs0"

/-- The body of the completion request (lines 243-272). -/
def completionRequest (transcript : String) : Json :=
  .obj
    [ ("model", .str "gpt-4o-2024-08-06"),
      ("messages", .arr
        [ .obj [ ("role", .str "system"),
                 ("content", .str
                   "Extract customer details: name, availability, and any special notes from the transcript.") ],
          .obj [ ("role", .str "user"), ("content", .str transcript) ] ]),
      ("response_format", .obj
        [ ("type", .str "json_schema"),
          ("json_schema", .obj
            [ ("name", .str "customer_details_extraction"),
              ("schema", .obj
                [ ("type", .str "object"),
                  ("properties", .obj
                    [ ("customerName", .obj [("type", .str "string")]),
                      ("customerAvailability", .obj [("type", .str "string")]),
                      ("specialNotes", .obj [("type", .str "string")]) ]),
                  ("required", .arr
                    [ .str "customerName", .str "customerAvailability", .str "specialNotes" ]) ]) ]) ]) ]

/-- What the network answers during one run of the post-call pipeline: to the completion
request and to the webhook request; `none` when the `fetch` promise rejects. -/
structure Network where
  completion : Option HttpResponse
  webhook : Option HttpResponse

/-- The function `makeChatGPTCompletion` (lines 234-283). -/
def makeChatGPTCompletion (net : Network) (transcript : String) : Eff Val := do
  consoleLog "Starting ChatGPT API call..."
  tryCatch
    (do
      issueFetch
        { url := "https://api.openai.com/v1/chat/completions", method := "POST",
          body := completionRequest transcript }
      match net.completion with
      | none => throwJs .fetchError
      | some response =>
        consoleLog "ChatGPT API response status:"
        match response.body with
        | none => throwJs .syntaxError
        | some data =>
          consoleLog "Full ChatGPT API response:"
          pure (.json data))
    (fun error => do
      consoleError "Error making ChatGPT completion call:"
      throwJs error)

/-- The function `sendToWebhook` (lines 286-306). -/
def sendToWebhook (net : Network) (payload : Json) : Eff Unit := do
  consoleLog "Sending data to webhook:"
  tryCatch
    (do
      issueFetch { url := WEBHOOK_URL, method := "POST", body := payload }
      match net.webhook with
      | none => throwJs .fetchError
      | some response =>
        consoleLog "Webhook response status:"
        if 200 ≤ response.status ∧ response.status ≤ 299 then
          consoleLog "Data successfully sent to webhook."
        else
          consoleError "Failed to send data to webhook:")
    (fun _ => consoleError "Error sending data to webhook:")

/-- The condition of lines 318-321,
`result.choices && result.choices[0] && result.choices[0].message &&
result.choices[0].message.content`, as a truth value. -/
def hasMessageContent (result : Val) : Except JsError Bool := do
  let choices ← getProp result "choices"
  if !truthy choices then return false
  let first ← getIndex0 choices
  if !truthy first then return false
  let message ← getProp first "message"
  if !truthy message then return false
  let content ← getProp message "content"
  return truthy content

/-- The expression `result.choices[0].message.content` of line 324. -/
def messageContent (result : Val) : Except JsError Val := do
  let choices ← getProp result "choices"
  let first ← getIndex0 choices
  let message ← getProp first "message"
  getProp message "content"

/-- The function `processTranscriptAndSend` (lines 309-343). -/
def processTranscriptAndSend (env : Env) (net : Network) (transcript : String)
    (sessionId : String) : Eff Unit := do
  consoleLog ("Starting transcript processing for session " ++ sessionId ++ "...")
  tryCatch
    (do
      let result ← makeChatGPTCompletion net transcript
      consoleLog "Raw result from ChatGPT:"
      if (← hasMessageContent result) then
        tryCatch
          (do
            let content ← messageContent result
            let parsedContent ← JSON_parse env content
            consoleLog "Parsed content:"
            if truthy (.json parsedContent) then
              sendToWebhook net parsedContent
              consoleLog "Extracted and sent customer details:"
            else
              consoleError "Unexpected JSON structure in ChatGPT response")
          (fun _ => consoleError "Error parsing JSON from ChatGPT response:")
      else
        consoleError "Unexpected response structure from ChatGPT API")
    (fun _ => consoleError "Error in processTranscriptAndSend:")

/-! ## The session map and the life of a connection (lines 71-80, 202-212) -/

/-- `sessions.get(key)`. -/
def Map_get (m : List (String × Nat)) (key : String) : Option Nat :=
  m.lookup key

/-- `sessions.set(key, value)`: an existing entry keeps its place and takes the new value, a
new entry goes last. -/
def Map_set : List (String × Nat) → String → Nat → List (String × Nat)
  | [], key, value => [(key, value)]
  | (k, v) :: rest, key, value =>
    if k = key then (k, value) :: rest else (k, v) :: Map_set rest key value

/-- `sessions.delete(key)`. -/
def Map_delete (m : List (String × Nat)) (key : String) : List (String × Nat) :=
  m.filter (fun kv => kv.1 != key)

/-- `sessions.size`. -/
def Map_size (m : List (String × Nat)) : Nat :=
  m.length

/-- The identifier of lines 74-75: the `x-twilio-call-sid` header of the request, or a name
built from the clock when the header is absent or empty. -/
def sessionIdOf (header : Option String) (now : Nat) : String :=
  match header with
  | some h => if h != "" then h else "session_" ++ toString now
  | none => "session_" ++ toString now

/-- Lines 72-80 of the route handler: the session of the call is looked up in the map, or
created, and (re)entered under the call identifier. The result is the address of the session
object the handlers of this connection close over. -/
def mediaStream_onConnect (sessionId : String) : Eff Nat := do
  consoleLog "Client connected"
  fun w =>
    match Map_get w.sessions sessionId with
    | some session =>
      .ok session { w with sessions := Map_set w.sessions sessionId session }
    | none =>
      .ok w.nextRef
        { w with
          heap := Function.update w.heap w.nextRef newSession
          nextRef := w.nextRef + 1
          sessions := Map_set w.sessions sessionId w.nextRef }

/-- The handler `connection.on("close")` (lines 202-212). Closing the socket to the speech API
has no effect on the state modelled here. -/
def connection_onClose (env : Env) (net : Network) (sessionId : String) (session : Nat) :
    Eff Unit := do
  consoleLog ("Client disconnected (" ++ sessionId ++ ").")
  consoleLog "Full Transcript:"
  let s ← readSession session
  consoleLog s.transcript
  processTranscriptAndSend env net s.transcript sessionId
  fun w => .ok () { w with sessions := Map_delete w.sessions sessionId }

/-- A message arriving on one of the two sockets of a connection. -/
inductive CallEvent where
  /-- A message from the caller side, with the state of the speech-API socket at that time. -/
  | caller (apiOpen : Bool) (message : String)
  /-- A message from the speech API. -/
  | api (data : String)
  deriving DecidableEq, Repr

/-- The handler run for one message. -/
def onEvent (env : Env) (sessionId : String) (session : Nat) : CallEvent → Eff Unit
  | .caller apiOpen message => connection_onMessage env session apiOpen message
  | .api data => openAiWs_onMessage env sessionId session data

/-- The handlers run for a sequence of messages, in arrival order. -/
def onEvents (env : Env) (sessionId : String) (session : Nat) : List CallEvent → Eff Unit
  | [] => pure ()
  | ev :: rest => do
    onEvent env sessionId session ev
    onEvents env sessionId session rest

/-- One whole call on the media-stream route: the connection is accepted, messages arrive,
the caller side closes. -/
def runCall (env : Env) (net : Network) (header : Option String) (now : Nat)
    (events : List CallEvent) : Eff Unit := do
  let sessionId := sessionIdOf header now
  let session ← mediaStream_onConnect sessionId
  onEvents env sessionId session events
  connection_onClose env net sessionId session

/-! ## Summaries of the two message handlers

The definitions below restate, by cases on the message, what each handler does to the session
and which messages it sends; the theorems `openAiWs_onMessage_summary` and
`connection_onMessage_summary` prove that the handlers of the previous section do exactly that. -/

/-- The line the speech-API handler appends to the transcript for a message (empty when it
appends none). -/
def apiLine (env : Env) (data : String) : String :=
  match env.JSON_parse (.json (.str data)) with
  | none => ""
  | some ev =>
    match getProp (.json ev) "type" with
    | .error _ => ""
    | .ok type =>
      if strictEqStr type "conversation.item.input_audio_transcription.completed" then
        match getProp (.json ev) "transcript" >>= callTrim with
        | .ok t => "User: " ++ t ++ "\n"
        | .error _ => ""
      else if strictEqStr type "response.done" then
        match agentMessageOf (.json ev) >>= toStringJS env with
        | .ok t => "Agent: " ++ t ++ "\n"
        | .error _ => ""
      else ""

/-- The messages the speech-API handler sends to the caller for a message, given the stream
identifier of the session. -/
def apiSends (env : Env) (data : String) (streamSid : Val) : List Json :=
  match env.JSON_parse (.json (.str data)) with
  | none => []
  | some ev =>
    match getProp (.json ev) "type" with
    | .error _ => []
    | .ok type =>
      if strictEqStr type "response.audio.delta" then
        match getProp (.json ev) "delta" with
        | .error _ => []
        | .ok delta =>
          if truthy delta then
            match Buffer_from env delta with
            | .error _ => []
            | .ok bytes =>
              [stringifyObject
                [ ("event", .json (.str "media")),
                  ("streamSid", streamSid),
                  ("media", .json (.obj [("payload", .str (base64Encode bytes))])) ]]
          else []
      else []

/-- The stream identifier the caller handler stores for a message, if it stores one. -/
def callerSid (env : Env) (message : String) : Option Val :=
  match env.JSON_parse (.json (.str message)) with
  | none => none
  | some data =>
    match getProp (.json data) "event" with
    | .error _ => none
    | .ok event =>
      if strictEqStr event "start" then
        match getProp (.json data) "start" >>= fun start => getProp start "streamSid" with
        | .ok v => some v
        | .error _ => none
      else none

/-- The messages the caller handler sends to the speech API for a message. -/
def callerSends (env : Env) (apiOpen : Bool) (message : String) : List Json :=
  match env.JSON_parse (.json (.str message)) with
  | none => []
  | some data =>
    match getProp (.json data) "event" with
    | .error _ => []
    | .ok event =>
      if strictEqStr event "media" && apiOpen then
        match getProp (.json data) "media" >>= fun media => getProp media "payload" with
        | .ok payload =>
          [stringifyObject
            [ ("type", .json (.str "input_audio_buffer.append")),
              ("audio", payload) ]]
        | .error _ => []
      else []

/-- Two worlds that differ at most in the console output. -/
def World.sameButLog (w1 w2 : World) : Prop :=
  w1.heap = w2.heap ∧ w1.nextRef = w2.nextRef ∧ w1.sessions = w2.sessions ∧
    w1.toApi = w2.toApi ∧ w1.toCaller = w2.toCaller ∧ w1.http = w2.http

/-- The world `w` after the session at address `s` became `sess` and the given messages were
sent, console output aside. -/
def World.stepped (w w1 : World) (s : Nat) (sess : Session) (toApi toCaller : List Json) : Prop :=
  w1.heap = Function.update w.heap s sess ∧ w1.nextRef = w.nextRef ∧ w1.sessions = w.sessions ∧
    w1.toApi = w.toApi ++ toApi ∧ w1.toCaller = w.toCaller ++ toCaller ∧ w1.http = w.http

/-- The transcript line a message adds: only a speech-API message can add one. -/
def eventLine (env : Env) : CallEvent → String
  | .caller _ _ => ""
  | .api data => apiLine env data

/-- The stream identifier a message stores: only a caller message can store one. -/
def eventSid (env : Env) : CallEvent → Option Val
  | .caller _ message => callerSid env message
  | .api _ => none

/-- The messages a message makes the relay send to the speech API. -/
def eventToApi (env : Env) : CallEvent → List Json
  | .caller apiOpen message => callerSends env apiOpen message
  | .api _ => []

/-- The messages a message makes the relay send to the caller, given the stream identifier of
the session. -/
def eventToCaller (env : Env) (streamSid : Val) : CallEvent → List Json
  | .caller _ _ => []
  | .api data => apiSends env data streamSid

/-- The session object after one message. -/
def sessionAfter (env : Env) (sess : Session) (ev : CallEvent) : Session :=
  { transcript := sess.transcript ++ eventLine env ev,
    streamSid := (eventSid env ev).getD sess.streamSid }

/-- The session object after a sequence of messages. -/
def sessionAfterAll (env : Env) (sess : Session) (events : List CallEvent) : Session :=
  events.foldl (sessionAfter env) sess

/-- The messages sent to the speech API over a sequence of messages. -/
def eventsToApi (env : Env) (events : List CallEvent) : List Json :=
  events.flatMap (eventToApi env)

/-- The messages sent to the caller over a sequence of messages that starts with the session
object `sess`. -/
def eventsToCaller (env : Env) : Session → List CallEvent → List Json
  | _, [] => []
  | sess, ev :: rest =>
    eventToCaller env sess.streamSid ev ++ eventsToCaller env (sessionAfter env sess ev) rest

/-- The body of the `try` of the handler run for one message. -/
def onEvent_try (env : Env) (sessionId : String) (session : Nat) : CallEvent → Eff Unit
  | .caller apiOpen message => connection_onMessage_try env session apiOpen message
  | .api data => openAiWs_onMessage_try env sessionId session data

/-! ## Vocabulary of the specification -/

/-- The field `k` of a JSON object; nothing on any other value. -/
def Json.field (j : Json) (k : String) : Option Json :=
  match j with
  | .obj kvs => kvs.lookup k
  | _ => none

/-- The placeholder of line 143. -/
def agentPlaceholder : Json :=
  .str "Agent message not found"

/-- A stream identifier counts as set when it is neither `null` nor `undefined`. -/
def streamSidSet (v : Val) : Prop :=
  v ≠ .json .null ∧ v ≠ .undefined

instance (v : Val) : Decidable (streamSidSet v) := by
  unfold streamSidSet; exact inferInstance

/-- A caller message that parses to a `start` event. -/
def isStartEvent (env : Env) : CallEvent → Bool
  | .api _ => false
  | .caller _ message =>
    match env.JSON_parse (.json (.str message)) with
    | some data => decide (data.field "event" = some (.str "start"))
    | none => false

/-- The stream identifier carried by a caller message that parses to a `start` event, namely
the string `start.streamSid`. -/
def startStreamSid (env : Env) : CallEvent → Option String
  | .api _ => none
  | .caller _ message =>
    match env.JSON_parse (.json (.str message)) with
    | some data =>
      if data.field "event" = some (.str "start") then
        match data.field "start" with
        | some start =>
          match start.field "streamSid" with
          | some (.str sid) => some sid
          | _ => none
        | none => none
      else none
    | none => none

/-- A speech-API message that parses to a caller-transcription-completed event. -/
def isUserTranscription (j : Json) : Bool :=
  decide (j.field "type" = some (.str "conversation.item.input_audio_transcription.completed"))

/-- A speech-API message that parses to a response-completed event. -/
def isResponseDone (j : Json) : Bool :=
  decide (j.field "type" = some (.str "response.done"))

/-- The text of the agent line of a response-completed event, as the handler computes it
(lines 140-144): the agent message converted to a string. -/
def agentText (env : Env) (j : Json) : Except JsError String :=
  agentMessageOf (.json j) >>= toStringJS env

/-- The transcript line of the specification for one message: `User: <trimmed text>` for a
caller-transcription-completed event, `Agent: <text>` for a response-completed event, nothing
for anything else. -/
def expectedLine (env : Env) : CallEvent → String
  | .caller _ _ => ""
  | .api data =>
    match env.JSON_parse (.json (.str data)) with
    | none => ""
    | some j =>
      if isUserTranscription j then
        match j.field "transcript" with
        | some (.str text) => "User: " ++ String_trim text ++ "\n"
        | _ => ""
      else if isResponseDone j then
        match agentText env j with
        | .ok text => "Agent: " ++ text ++ "\n"
        | .error _ => ""
      else ""

/-- A relevant event carries its text: a caller-transcription-completed event has a string
`transcript`, and the agent message of a response-completed event can be read. -/
def carriesText (env : Env) : CallEvent → Bool
  | .caller _ _ => true
  | .api data =>
    match env.JSON_parse (.json (.str data)) with
    | none => true
    | some j =>
      if isUserTranscription j then
        match j.field "transcript" with
        | some (.str _) => true
        | _ => false
      else if isResponseDone j then
        match agentText env j with
        | .ok _ => true
        | .error _ => false
      else true

/-- The content items of an output item: the elements of its `content` array. -/
def contentItems (item : Json) : List Json :=
  match item.field "content" with
  | some (.arr parts) => parts
  | _ => []

/-- The output items of a response-completed event: the elements of `response.output`. -/
def outputItems (ev : Json) : List Json :=
  match ev.field "response" with
  | some response =>
    match response.field "output" with
    | some (.arr items) => items
    | _ => []
  | none => []

/-- The agent message as claim C4 words it: the transcript of the first content item of the
response that has a `transcript` field, the placeholder when no content item has one. -/
def claimedAgentValue (ev : Json) : Json :=
  match ((outputItems ev).flatMap contentItems).find? (fun part => (part.field "transcript").isSome) with
  | some part => (part.field "transcript").getD agentPlaceholder
  | none => agentPlaceholder

/-- The agent line as claim C4 words it: `Agent: ` followed by the string form of
`claimedAgentValue`. -/
def claimedAgentLine (env : Env) (ev : Json) : Except JsError String :=
  (toStringJS env (.json (claimedAgentValue ev))).map (fun text => "Agent: " ++ text ++ "\n")

/-- Whether the `transcript` of a content item is truthy. -/
def hasSpokenTranscript (part : Json) : Bool :=
  match part.field "transcript" with
  | some t => truthy (.json t)
  | none => false

/-- The agent message as amended: the transcript of the first content item of the first output
item whose transcript is truthy, the placeholder when there is no such item. -/
def amendedAgentValue (output : List Json) : Json :=
  match output with
  | [] => agentPlaceholder
  | first :: _ =>
    match (contentItems first).find? hasSpokenTranscript with
    | some part => (part.field "transcript").getD agentPlaceholder
    | none => agentPlaceholder

/-- The first output item is well formed: its `content` is absent, `null`, or an array without
`null` elements. -/
def firstOutputReadable (output : List Json) : Bool :=
  match output with
  | [] => true
  | first :: _ =>
    match first with
    | .obj kvs =>
      match kvs.lookup "content" with
      | none => true
      | some .null => true
      | some (.arr parts) => parts.all (fun part => decide (part ≠ .null))
      | some _ => false
    | _ => true

/-- The `media` event the specification expects the caller socket to receive. -/
def callerMedia (streamSid : Json) (payload : String) : Json :=
  .obj [("event", .str "media"), ("streamSid", streamSid), ("media", .obj [("payload", .str payload)])]

/-- The message the specification expects the speech API to receive for an audio frame. -/
def audioAppend (payload : Json) : Json :=
  .obj [("type", .str "input_audio_buffer.append"), ("audio", payload)]

/-- The completion request issued for a transcript. -/
def completionFetch (transcript : String) : HttpRequest :=
  { url := "https://api.openai.com/v1/chat/completions", method := "POST",
    body := completionRequest transcript }

/-! ## Sample inputs -/

/-- JSON texts used in the examples, each with the value JSON.parse gives for it. -/
def sampleTexts : List (String × Json) :=
  [ ("\x7b\"event\":\"start\",\"start\":\x7b\"streamSid\":\"SID1\"\x7d\x7d",
      .obj [("event", .str "start"), ("start", .obj [("streamSid", .str "SID1")])]),
    ("\x7b\"event\":\"start\",\"start\":\x7b\"streamSid\":\"SID2\"\x7d\x7d",
      .obj [("event", .str "start"), ("start", .obj [("streamSid", .str "SID2")])]),
    ("\x7b\"event\":\"media\",\"media\":\x7b\"payload\":\"QQ==\"\x7d\x7d",
      .obj [("event", .str "media"), ("media", .obj [("payload", .str "QQ==")])]),
    ("\x7b\"event\":\"mark\"\x7d", .obj [("event", .str "mark")]),
    ("\x7b\"type\":\"response.audio.delta\",\"delta\":\"QQ==\"\x7d",
      .obj [("type", .str "response.audio.delta"), ("delta", .str "QQ==")]),
    ("\x7b\"type\":\"response.audio.delta\",\"delta\":\"QQ\"\x7d",
      .obj [("type", .str "response.audio.delta"), ("delta", .str "QQ")]),
    ("\x7b\"type\":\"response.audio.delta\",\"delta\":\"\"\x7d",
      .obj [("type", .str "response.audio.delta"), ("delta", .str "")]),
    ("\x7b\"type\":\"conversation.item.input_audio_transcription.completed\",\"transcript\":\" hi \\n\"\x7d",
      .obj [("type", .str "conversation.item.input_audio_transcription.completed"),
            ("transcript", .str " hi \n")]),
    ("\x7b\"type\":\"response.done\",\"response\":\x7b\"output\":[\x7b\"type\":\"message\",\"content\":[\x7b\"type\":\"audio\",\"transcript\":\"hello\"\x7d]\x7d]\x7d\x7d",
      .obj [("type", .str "response.done"),
            ("response", .obj [("output", .arr
              [.obj [("type", .str "message"),
                     ("content", .arr [.obj [("type", .str "audio"), ("transcript", .str "hello")]])]])])]),
    ("\x7b\"type\":\"response.done\",\"response\":\x7b\"output\":[\x7b\"type\":\"message\",\"content\":[\x7b\"type\":\"audio\",\"transcript\":\"\"\x7d]\x7d]\x7d\x7d",
      .obj [("type", .str "response.done"),
            ("response", .obj [("output", .arr
              [.obj [("type", .str "message"),
                     ("content", .arr [.obj [("type", .str "audio"), ("transcript", .str "")]])]])])]),
    ("\x7b\"type\":\"response.done\",\"response\":\x7b\"output\":[\x7b\"type\":\"function_call\"\x7d,\x7b\"type\":\"message\",\"content\":[\x7b\"type\":\"audio\",\"transcript\":\"hi\"\x7d]\x7d]\x7d\x7d",
      .obj [("type", .str "response.done"),
            ("response", .obj [("output", .arr
              [.obj [("type", .str "function_call")],
               .obj [("type", .str "message"),
                     ("content", .arr [.obj [("type", .str "audio"), ("transcript", .str "hi")]])]])])]),
    ("\x7b\"type\":\"session.updated\"\x7d", .obj [("type", .str "session.updated")]),
    ("\x7b\"customerName\":\"Ann\",\"customerAvailability\":\"Monday\",\"specialNotes\":\"none\"\x7d",
      .obj [("customerName", .str "Ann"), ("customerAvailability", .str "Monday"),
            ("specialNotes", .str "none")]) ]

/-- A stand-in for the library on the sample inputs: JSON.parse answers for the texts of
`sampleTexts` and rejects the other texts used in the examples (`not json`, `Sorry, no.`), and
numbers print in decimal. The examples apply JSON.parse to these texts only, and never apply
`Buffer.from` to an array or object. -/
def sampleEnv : Env where
  JSON_parse := fun v =>
    match v with
    | .json (.str text) => sampleTexts.lookup text
    | _ => none
  numberToString := fun n => toString n
  bufferFromObject := fun _ => none

/-- A world whose sessions all carry the stream identifier `SID1` and an empty transcript. -/
def sampleWorld : World :=
  { World.initial with heap := fun _ => { transcript := "", streamSid := .json (.str "SID1") } }

/-- A completion result whose first choice has the given message content. -/
def sampleCompletion (content : String) : Json :=
  .obj [("choices", .arr [.obj [("message", .obj [("role", .str "assistant"), ("content", .str content)])]])]

/-- A network on which both requests are answered with status 200, the completion request
with the given result. -/
def sampleNetwork (result : Json) : Network :=
  { completion := some { status := 200, body := some result },
    webhook := some { status := 200, body := none } }

/-- The lines of a list, one after the other. -/
def concatLines : List String → String
  | [] => ""
  | line :: rest => line ++ concatLines rest

/-- The stream identifier carried by the last `start` event of a sequence of messages. -/
def lastStartSid (env : Env) : List CallEvent → Option String
  | [] => none
  | ev :: rest =>
    match lastStartSid env rest with
    | some sid => some sid
    | none => startStreamSid env ev

/-! ## Lemmas on values and on the handler monad -/

theorem Eff.bind_def {α β : Type} (m : Eff α) (f : α → Eff β) (w : World) :
    (m >>= f) w = match m w with
      | .ok a w1 => f a w1
      | .threw e w1 => .threw e w1 := rfl

theorem strictEqStr_str (t s : String) : strictEqStr (.json (.str t)) s = decide (t = s) := by
  unfold strictEqStr; rfl

theorem toStringJS_str (env : Env) (t : String) : toStringJS env (.json (.str t)) = .ok t := rfl

theorem session_append_empty (x : Session) :
    ({ transcript := x.transcript ++ "", streamSid := x.streamSid } : Session) = x := by
  cases x; simp

theorem update_session_self (heap : Nat → Session) (s : Nat) :
    Function.update heap s
      { transcript := (heap s).transcript ++ "", streamSid := (heap s).streamSid } = heap := by
  rw [session_append_empty]; exact Function.update_eq_self s heap

set_option maxHeartbeats 1000000 in
/-- What the body of `openAiWs.on("message")` does, for every message: it appends `apiLine` to
the transcript of its session, sends `apiSends` to the caller and changes nothing else but the
console output; and when it throws, it has appended and sent nothing. -/
theorem openAiWs_onMessage_try_summary (env : Env) (sid : String) (s : Nat) (data : String)
    (w : World) :
    World.stepped w (openAiWs_onMessage_try env sid s data w).world s
        { transcript := (w.heap s).transcript ++ apiLine env data,
          streamSid := (w.heap s).streamSid }
        [] (apiSends env data (w.heap s).streamSid) ∧
      ((openAiWs_onMessage_try env sid s data w).isThrow = true →
        apiLine env data = "" ∧ ∀ v, apiSends env data v = []) := by
  unfold openAiWs_onMessage_try apiLine apiSends World.stepped
  simp only [bind, liftM, monadLift, MonadLift.monadLift, liftExcept, JSON_parse]
  cases hp : env.JSON_parse (.json (.str data)) with
  | none => simp [Res.world, Res.isThrow, update_session_self]
  | some ev =>
    simp only []
    cases ht : getProp (.json ev) "type" with
    | error e => simp [Res.world, Res.isThrow, update_session_self]
    | ok type =>
      simp only []
      rcases type with _ | j
      · simp [Res.world, Res.isThrow, strictEqStr, includesStr, pure, update_session_self]
      · cases j with
        | str t =>
          simp only [strictEqStr_str, includesStr, toStringJS_str]
          by_cases h1 : t = "conversation.item.input_audio_transcription.completed"
          · subst h1
            cases htr : getProp (.json ev) "transcript" with
            | error e => simp [Res.world, Res.isThrow, consoleLog, update_session_self, LOG_EVENT_TYPES, Except.bind, bind]
            | ok tr =>
              cases hc : callTrim tr <;>
              simp [Res.world, Res.isThrow, consoleLog, update_session_self, LOG_EVENT_TYPES, Except.bind, bind, hc,
                appendTranscript, pure]
          · by_cases h2 : t = "response.done"
            · subst h2
              cases ha : agentMessageOf (.json ev) with
              | error e => simp [Res.world, Res.isThrow, consoleLog, update_session_self, LOG_EVENT_TYPES, Except.bind, bind]
              | ok a =>
                cases hs : toStringJS env a <;>
                simp [Res.world, Res.isThrow, consoleLog, update_session_self, LOG_EVENT_TYPES, Except.bind, bind, hs,
                  appendTranscript, pure]
            · by_cases h3 : t = "session.updated"
              · subst h3
                simp [Res.world, Res.isThrow, consoleLog, update_session_self, LOG_EVENT_TYPES, pure]
              · by_cases h4 : t = "response.audio.delta"
                · subst h4
                  cases hd : getProp (.json ev) "delta" with
                  | error e => simp [Res.world, Res.isThrow, consoleLog, update_session_self, LOG_EVENT_TYPES, pure]
                  | ok d =>
                    cases htd : truthy d
                    · simp [Res.world, Res.isThrow, consoleLog, update_session_self, LOG_EVENT_TYPES, pure, htd]
                    · cases hb : Buffer_from env d <;>
                      simp [Res.world, Res.isThrow, consoleLog, update_session_self, LOG_EVENT_TYPES, pure, hb,
                        htd, readSession, sendToCaller]
                · simp only [h1, h2, h3, h4]
                  cases hl : List.contains LOG_EVENT_TYPES t <;>
                  simp [Res.world, Res.isThrow, consoleLog, update_session_self, pure]
        | _ => simp [Res.world, Res.isThrow, strictEqStr, includesStr, pure, update_session_self]

theorem update_session_same (heap : Nat → Session) (s : Nat) :
    Function.update heap s
      { transcript := (heap s).transcript, streamSid := (heap s).streamSid } = heap := by
  have h : ({ transcript := (heap s).transcript, streamSid := (heap s).streamSid } : Session)
      = heap s := by cases heap s; rfl
  rw [h]; exact Function.update_eq_self s heap

set_option maxHeartbeats 1000000 in
/-- What the body of `connection.on("message")` does, for every message: it stores `callerSid`
as the stream identifier of its session when there is one, sends `callerSends` to the speech
API and changes nothing else but the console output; and when it throws, it has stored and
sent nothing. -/
theorem connection_onMessage_try_summary (env : Env) (s : Nat) (apiOpen : Bool)
    (message : String) (w : World) :
    World.stepped w (connection_onMessage_try env s apiOpen message w).world s
        { transcript := (w.heap s).transcript,
          streamSid := (callerSid env message).getD (w.heap s).streamSid }
        (callerSends env apiOpen message) [] ∧
      ((connection_onMessage_try env s apiOpen message w).isThrow = true →
        callerSid env message = none ∧ callerSends env apiOpen message = []) := by
  unfold connection_onMessage_try callerSid callerSends World.stepped
  simp only [bind, liftM, monadLift, MonadLift.monadLift, liftExcept, JSON_parse]
  cases hp : env.JSON_parse (.json (.str message)) with
  | none => simp [Res.world, Res.isThrow, update_session_same]
  | some data =>
    simp only []
    cases he : getProp (.json data) "event" with
    | error e => simp [Res.world, Res.isThrow, update_session_same]
    | ok event =>
      simp only []
      rcases event with _ | j
      · simp [Res.world, Res.isThrow, strictEqStr, consoleLog, update_session_same]
      · cases j with
        | str t =>
          simp only [strictEqStr_str]
          by_cases h1 : t = "media"
          · subst h1
            cases apiOpen
            · simp [Res.world, Res.isThrow, pure, update_session_same]
            · cases hm : getProp (.json data) "media" with
              | error e => simp [Res.world, Res.isThrow, update_session_same, Except.bind, bind]
              | ok media =>
                cases hq : getProp media "payload" <;>
                simp [Res.world, Res.isThrow, update_session_same, Except.bind, bind, hq, sendToApi]
          · by_cases h2 : t = "start"
            · subst h2
              cases hm : getProp (.json data) "start" with
              | error e => simp [Res.world, Res.isThrow, update_session_same, Except.bind, bind]
              | ok start =>
                cases hq : getProp start "streamSid" <;>
                simp [Res.world, Res.isThrow, update_session_same, Except.bind, bind, hq,
                  setStreamSid, consoleLog]
            · simp [Res.world, Res.isThrow, h1, h2, consoleLog, update_session_same]
        | _ => simp [Res.world, Res.isThrow, strictEqStr, consoleLog, update_session_same]

/-- A `try` whose `catch` only writes to the console returns normally, in the world the body
ended in, console output aside. -/
theorem tryCatch_consoleError (body : Eff Unit) (text : String) (w : World) :
    ∃ w1, tryCatch body (fun _ => consoleError text) w = .ok () w1 ∧
      w1.sameButLog (body w).world := by
  unfold tryCatch
  cases h : body w with
  | ok a w1 => exact ⟨w1, rfl, by simp [World.sameButLog, Res.world]⟩
  | threw e w1 => exact ⟨_, rfl, by simp [World.sameButLog, Res.world]⟩

theorem World.stepped_of_sameButLog {w w1 w2 : World} {s : Nat} {sess : Session}
    {toApi toCaller : List Json} (h : w2.sameButLog w1) (h1 : World.stepped w w1 s sess toApi toCaller) :
    World.stepped w w2 s sess toApi toCaller := by
  obtain ⟨a1, a2, a3, a4, a5, a6⟩ := h
  obtain ⟨b1, b2, b3, b4, b5, b6⟩ := h1
  exact ⟨a1.trans b1, a2.trans b2, a3.trans b3, a4.trans b4, a5.trans b5, a6.trans b6⟩

/-- What `openAiWs.on("message")` does, for every message: it returns normally, appends
`apiLine` to the transcript of its session, sends `apiSends` to the caller, and changes nothing
else but the console output. -/
theorem openAiWs_onMessage_summary (env : Env) (sid : String) (s : Nat) (data : String)
    (w : World) :
    ∃ w1, openAiWs_onMessage env sid s data w = .ok () w1 ∧
      World.stepped w w1 s
        { transcript := (w.heap s).transcript ++ apiLine env data,
          streamSid := (w.heap s).streamSid }
        [] (apiSends env data (w.heap s).streamSid) := by
  obtain ⟨w1, h1, h2⟩ := tryCatch_consoleError (openAiWs_onMessage_try env sid s data)
    "Error processing OpenAI message:" w
  exact ⟨w1, h1, World.stepped_of_sameButLog h2 (openAiWs_onMessage_try_summary env sid s data w).1⟩

/-- What `connection.on("message")` does, for every message: it returns normally, stores
`callerSid` when there is one, sends `callerSends` to the speech API, and changes nothing else
but the console output. -/
theorem connection_onMessage_summary (env : Env) (s : Nat) (apiOpen : Bool) (message : String)
    (w : World) :
    ∃ w1, connection_onMessage env s apiOpen message w = .ok () w1 ∧
      World.stepped w w1 s
        { transcript := (w.heap s).transcript,
          streamSid := (callerSid env message).getD (w.heap s).streamSid }
        (callerSends env apiOpen message) [] := by
  obtain ⟨w1, h1, h2⟩ := tryCatch_consoleError (connection_onMessage_try env s apiOpen message)
    "Error parsing message:" w
  exact ⟨w1, h1,
    World.stepped_of_sameButLog h2 (connection_onMessage_try_summary env s apiOpen message w).1⟩

theorem sessionAfterAll_cons (env : Env) (sess : Session) (ev : CallEvent) (rest : List CallEvent) :
    sessionAfterAll env sess (ev :: rest) = sessionAfterAll env (sessionAfter env sess ev) rest := rfl

/-- What the handler of one message does. -/
theorem onEvent_summary (env : Env) (sid : String) (s : Nat) (ev : CallEvent) (w : World) :
    ∃ w1, onEvent env sid s ev w = .ok () w1 ∧
      World.stepped w w1 s (sessionAfter env (w.heap s) ev) (eventToApi env ev)
        (eventToCaller env (w.heap s).streamSid ev) := by
  cases ev with
  | caller apiOpen message =>
    obtain ⟨w1, h1, h2⟩ := connection_onMessage_summary env s apiOpen message w
    refine ⟨w1, h1, ?_⟩
    simpa [sessionAfter, eventLine, eventSid, eventToApi, eventToCaller] using h2
  | api data =>
    obtain ⟨w1, h1, h2⟩ := openAiWs_onMessage_summary env sid s data w
    refine ⟨w1, h1, ?_⟩
    simpa [sessionAfter, eventLine, eventSid, eventToApi, eventToCaller] using h2

/-- What the handlers do over a sequence of messages: they all return normally, the session of
the connection ends as `sessionAfterAll`, and the map of sessions is untouched. -/
theorem onEvents_summary (env : Env) (sid : String) (s : Nat) (events : List CallEvent) :
    ∀ w : World, ∃ w1, onEvents env sid s events w = .ok () w1 ∧
      World.stepped w w1 s (sessionAfterAll env (w.heap s) events) (eventsToApi env events)
        (eventsToCaller env (w.heap s) events) := by
  induction events with
  | nil =>
    intro w
    refine ⟨w, rfl, ?_⟩
    simp [World.stepped, sessionAfterAll, eventsToApi, eventsToCaller]
  | cons ev rest ih =>
    intro w
    obtain ⟨w1, h1, a1, a2, a3, a4, a5, a6⟩ := onEvent_summary env sid s ev w
    obtain ⟨w2, h2, b1, b2, b3, b4, b5, b6⟩ := ih w1
    have hs : w1.heap s = sessionAfter env (w.heap s) ev := by rw [a1]; simp
    refine ⟨w2, ?_, ?_⟩
    · show (onEvent env sid s ev >>= fun _ => onEvents env sid s rest) w = _
      rw [Eff.bind_def, h1]; exact h2
    · refine ⟨?_, b2.trans a2, b3.trans a3, ?_, ?_, b6.trans a6⟩
      · rw [b1, hs, a1, sessionAfterAll_cons]; simp
      · rw [b4, a4]; simp [eventsToApi]
      · rw [b5, hs, a5]; simp [eventsToCaller]

/-! ## C1: caller audio is forwarded to the speech API -/

/-- C1. A caller message that parses to a `media` event with audio payload `p` makes the
handler send exactly one message to the speech API when the link is open, namely
`input_audio_buffer.append` with `audio` equal to `p`, and changes nothing else; when the link
is not open the handler returns normally and leaves the whole world as it was. -/
theorem caller_media_forwarded (env : Env) (s : Nat) (message : String)
    (kvs mkvs : List (String × Json)) (p : Json) (w : World)
    (hparse : env.JSON_parse (.json (.str message)) = some (.obj kvs))
    (hevent : kvs.lookup "event" = some (.str "media"))
    (hmedia : kvs.lookup "media" = some (.obj mkvs))
    (hpayload : mkvs.lookup "payload" = some p) :
    connection_onMessage env s true message w
        = .ok () { w with toApi := w.toApi ++ [audioAppend p] } ∧
      connection_onMessage env s false message w = .ok () w := by
  constructor <;>
  simp [connection_onMessage, connection_onMessage_try, tryCatch, bind, liftM, monadLift,
    MonadLift.monadLift, liftExcept, JSON_parse, hparse, getProp, hevent, hmedia, hpayload,
    strictEqStr, sendToApi, stringifyObject, audioAppend, pure]

/-- C1 on the scenario of the specification: the frame `QQ==` reaches the speech API
unchanged when the link is open, and is dropped when it is not. -/
theorem caller_media_forwarded_witness :
    connection_onMessage sampleEnv 0 true
        "\x7b\"event\":\"media\",\"media\":\x7b\"payload\":\"QQ==\"\x7d\x7d" sampleWorld
        = .ok () { sampleWorld with toApi := sampleWorld.toApi ++ [audioAppend (.str "QQ==")] } ∧
      connection_onMessage sampleEnv 0 false
        "\x7b\"event\":\"media\",\"media\":\x7b\"payload\":\"QQ==\"\x7d\x7d" sampleWorld
        = .ok () sampleWorld :=
  caller_media_forwarded sampleEnv 0 _ [("event", .str "media"), ("media", .obj [("payload", .str "QQ==")])]
    [("payload", .str "QQ==")] (.str "QQ==") sampleWorld (by decide) (by decide) (by decide)
    (by decide)

/-! ## The base64 codec: decoding undoes encoding -/

theorem base64Char_digit : ∀ n, n < 64 →
    (base64Char n).toNat < 0x10000 ∧ unbase64 ((base64Char n).toNat % 256) = some n := by
  decide

theorem base64Sextets_digit (n : Nat) (h : n < 64) (rest : List Nat) :
    base64Sextets (utf16Units (base64Char n) ++ rest) = n :: base64Sextets rest := by
  obtain ⟨h1, h2⟩ := base64Char_digit n h
  simp [utf16Units, h1, base64Sextets, h2]

theorem base64Sextets_padding (rest : List Nat) :
    base64Sextets (utf16Units '=' ++ rest) = [] := by
  have h1 : utf16Units '=' = [61] := by decide
  have h2 : unbase64 (61 % 256) = none := by decide
  simp [h1, base64Sextets, h2]

/-- Decoding the encoding of a byte list gives the byte list back. -/
theorem base64_decode_encode : ∀ bytes : List Nat, (∀ b ∈ bytes, b < 256) →
    base64Decode (base64Encode bytes) = bytes := by
  intro bytes
  unfold base64Decode base64Encode
  simp only []
  induction bytes using base64EncodeChars.induct with
  | case1 a b c rest ih =>
    intro hb
    have ha : a < 256 := hb a (by simp)
    have hb2 : b < 256 := hb b (by simp)
    have hc : c < 256 := hb c (by simp)
    have hrest : ∀ x ∈ rest, x < 256 := fun x hx => hb x (by simp [hx])
    simp only [base64EncodeChars, List.flatMap_cons]
    rw [base64Sextets_digit _ (by omega), base64Sextets_digit _ (by omega),
      base64Sextets_digit _ (by omega), base64Sextets_digit _ (by omega)]
    simp only [sextetsToBytes]
    rw [ih hrest]
    congr 1
    · omega
    · congr 1
      · omega
      · congr 1; omega
  | case2 a b =>
    intro hb
    have ha : a < 256 := hb a (by simp)
    have hb2 : b < 256 := hb b (by simp)
    simp only [base64EncodeChars, List.flatMap_cons]
    rw [base64Sextets_digit _ (by omega), base64Sextets_digit _ (by omega),
      base64Sextets_digit _ (by omega), base64Sextets_padding]
    simp only [sextetsToBytes]
    congr 1
    · omega
    · congr 1; omega
  | case3 a =>
    intro hb
    have ha : a < 256 := hb a (by simp)
    simp only [base64EncodeChars, List.flatMap_cons]
    rw [base64Sextets_digit _ (by omega), base64Sextets_digit _ (by omega), base64Sextets_padding]
    simp only [sextetsToBytes]
    congr 1; omega
  | case4 =>
    intro _
    simp [base64EncodeChars, base64Sextets, sextetsToBytes]


/-! ## C2: speech audio is forwarded to the caller -/

/-- C2, counterexample. The payload is not forwarded as received: the delta `QQ` (base64
without padding) reaches the caller as `QQ==`, not as the `QQ` the claim promises, and an empty
delta is not forwarded at all. -/
theorem api_delta_not_verbatim :
    ((openAiWs_onMessage sampleEnv "CA1" 0
        "\x7b\"type\":\"response.audio.delta\",\"delta\":\"QQ\"\x7d" sampleWorld).world.toCaller
        = [callerMedia (.str "SID1") "QQ=="] ∧
      callerMedia (.str "SID1") "QQ==" ≠ callerMedia (.str "SID1") "QQ") ∧
    (openAiWs_onMessage sampleEnv "CA1" 0
        "\x7b\"type\":\"response.audio.delta\",\"delta\":\"\"\x7d" sampleWorld).world.toCaller
        = [] := by
  decide

/-- C2, amended. A speech-API message of type `response.audio.delta` whose `delta` is the
string `d`, received while the stream identifier of the session is `sid`, makes the handler
send the caller exactly one `media` message tagged `sid` when `d` is not empty, with the
payload `d` decoded from base64 and encoded again; that payload is `d` itself whenever `d` is
the base64 encoding of a byte sequence. An empty `d` is dropped. Nothing else changes. -/
theorem api_delta_forwarded (env : Env) (sessionId : String) (s : Nat) (data : String)
    (kvs : List (String × Json)) (d : String) (sid : Json) (w : World)
    (hparse : env.JSON_parse (.json (.str data)) = some (.obj kvs))
    (htype : kvs.lookup "type" = some (.str "response.audio.delta"))
    (hdelta : kvs.lookup "delta" = some (.str d))
    (hsid : (w.heap s).streamSid = .json sid) :
    (d ≠ "" → openAiWs_onMessage env sessionId s data w
        = .ok () { w with toCaller := w.toCaller ++
            [callerMedia sid (base64Encode (base64Decode d))] }) ∧
      (d = "" → openAiWs_onMessage env sessionId s data w = .ok () w) ∧
      (∀ bytes : List Nat, (∀ b ∈ bytes, b < 256) → d = base64Encode bytes →
        base64Encode (base64Decode d) = d) := by
  refine ⟨?_, ?_, ?_⟩
  · intro hd
    simp [openAiWs_onMessage, openAiWs_onMessage_try, tryCatch, bind, liftM, monadLift,
      MonadLift.monadLift, liftExcept, JSON_parse, hparse, getProp, htype, hdelta, hsid,
      strictEqStr, includesStr, LOG_EVENT_TYPES, truthy, hd, Buffer_from, readSession,
      sendToCaller, stringifyObject, callerMedia, pure]
  · intro hd
    simp [openAiWs_onMessage, openAiWs_onMessage_try, tryCatch, bind, liftM, monadLift,
      MonadLift.monadLift, liftExcept, JSON_parse, hparse, getProp, htype, hdelta,
      strictEqStr, includesStr, LOG_EVENT_TYPES, truthy, hd, pure]
  · intro bytes hb hd
    rw [hd, base64_decode_encode bytes hb]

/-- C2, amended, on the scenario of the specification: the delta `QQ==`, the encoding of the
byte 65, reaches the caller as `QQ==` under the tag `SID1`. -/
theorem api_delta_forwarded_witness :
    openAiWs_onMessage sampleEnv "CA1" 0
        "\x7b\"type\":\"response.audio.delta\",\"delta\":\"QQ==\"\x7d" sampleWorld
      = .ok () { sampleWorld with toCaller := sampleWorld.toCaller ++
          [callerMedia (.str "SID1") "QQ=="] } := by
  have h := api_delta_forwarded sampleEnv "CA1" 0
    "\x7b\"type\":\"response.audio.delta\",\"delta\":\"QQ==\"\x7d"
    [("type", .str "response.audio.delta"), ("delta", .str "QQ==")] "QQ==" (.str "SID1")
    sampleWorld (by decide) (by decide) (by decide) (by decide)
  have h1 := h.1 (by decide)
  have h3 := h.2.2 [65] (by decide) (by decide)
  rw [h3] at h1
  exact h1

/-! ## C3: the transcript accumulates one line per relevant event, in arrival order -/

theorem getProp_obj (kvs : List (String × Json)) (k : String) :
    getProp (.json (.obj kvs)) k
      = .ok (match kvs.lookup k with
          | some x => .json x
          | none => .undefined) := by
  cases h : kvs.lookup k <;> simp [getProp, h]

theorem strictEqStr_lookup (kvs : List (String × Json)) (k lit : String) :
    strictEqStr (match kvs.lookup k with
        | some x => .json x
        | none => .undefined) lit
      = decide (kvs.lookup k = some (.str lit)) := by
  cases h : kvs.lookup k with
  | none => simp [strictEqStr]
  | some x => cases x <;> simp [strictEqStr_str] <;> simp [strictEqStr]

/-- On a message whose relevant event carries its text, the handler appends the line of the
specification. -/
theorem eventLine_eq_expectedLine (env : Env) (ev : CallEvent) (h : carriesText env ev = true) :
    eventLine env ev = expectedLine env ev := by
  cases ev with
  | caller apiOpen message => rfl
  | api data =>
    simp only [carriesText] at h
    simp only [eventLine, apiLine, expectedLine]
    cases hp : env.JSON_parse (.json (.str data)) with
    | none => rfl
    | some j =>
      rw [hp] at h
      simp only [] at h ⊢
      cases j with
      | obj kvs =>
        rw [getProp_obj]
        simp only [strictEqStr_lookup, isUserTranscription, isResponseDone, Json.field, agentText] at h ⊢
        by_cases h1 : kvs.lookup "type"
            = some (.str "conversation.item.input_audio_transcription.completed")
        · simp only [h1, decide_True, if_true] at h ⊢
          cases ht : kvs.lookup "transcript" with
          | none => simp [ht] at h
          | some t =>
            cases t <;> simp [ht] at h
            simp [bind, Except.bind, callTrim, getProp, ht]
        · simp only [h1, decide_False, if_false] at h ⊢
          by_cases h2 : kvs.lookup "type" = some (.str "response.done")
          · simp [h2]
          · simp [h2]
      | null => simp [getProp, isUserTranscription, isResponseDone, Json.field]
      | bool b => simp [getProp, strictEqStr, isUserTranscription, isResponseDone, Json.field]
      | num n => simp [getProp, strictEqStr, isUserTranscription, isResponseDone, Json.field]
      | str t => simp [getProp, strictEqStr, isUserTranscription, isResponseDone, Json.field]
      | arr xs => simp [getProp, strictEqStr, isUserTranscription, isResponseDone, Json.field]

theorem sessionAfterAll_transcript (env : Env) (events : List CallEvent) :
    ∀ sess : Session, (sessionAfterAll env sess events).transcript
      = sess.transcript ++ concatLines (events.map (eventLine env)) := by
  induction events with
  | nil => intro sess; simp [sessionAfterAll, concatLines]
  | cons ev rest ih =>
    intro sess
    rw [sessionAfterAll_cons, ih]
    simp [sessionAfter, concatLines, String.append_assoc]

/-- C3. Over any sequence of messages on the two sockets of a call in which every relevant
speech-API event carries its text, the handlers all return normally and the transcript of the
session ends as the previous transcript followed by one line per relevant event, in arrival
order: `User: <trimmed text>` for each caller-transcription-completed event, `Agent: <text>`
for each response-completed event, and nothing for any other message. -/
theorem transcript_accumulates (env : Env) (sessionId : String) (s : Nat)
    (events : List CallEvent) (w : World)
    (hwf : ∀ ev ∈ events, carriesText env ev = true) :
    ∃ w1, onEvents env sessionId s events w = .ok () w1 ∧
      (w1.heap s).transcript
        = (w.heap s).transcript ++ concatLines (events.map (expectedLine env)) := by
  obtain ⟨w1, h1, a1, -⟩ := onEvents_summary env sessionId s events w
  refine ⟨w1, h1, ?_⟩
  rw [a1]
  simp only [Function.update_same]
  rw [sessionAfterAll_transcript]
  congr 1
  congr 1
  exact List.map_congr_left (fun ev hev => eventLine_eq_expectedLine env ev (hwf ev hev))

/-- C3 on a conversation: a caller utterance, an audio frame from the caller, a completed
response, a second and identical caller utterance. The transcript has the three lines, in
arrival order, the repeated one twice. -/
theorem transcript_accumulates_witness :
    ∃ w1, onEvents sampleEnv "CA1" 0
        [ .api "\x7b\"type\":\"conversation.item.input_audio_transcription.completed\",\"transcript\":\" hi \\n\"\x7d",
          .caller true "\x7b\"event\":\"media\",\"media\":\x7b\"payload\":\"QQ==\"\x7d\x7d",
          .api "\x7b\"type\":\"response.done\",\"response\":\x7b\"output\":[\x7b\"type\":\"message\",\"content\":[\x7b\"type\":\"audio\",\"transcript\":\"hello\"\x7d]\x7d]\x7d\x7d",
          .api "\x7b\"type\":\"conversation.item.input_audio_transcription.completed\",\"transcript\":\" hi \\n\"\x7d" ]
        sampleWorld = .ok () w1 ∧
      (w1.heap 0).transcript = "User: hi\nAgent: hello\nUser: hi\n" := by
  have h := transcript_accumulates sampleEnv "CA1" 0
    [ .api "\x7b\"type\":\"conversation.item.input_audio_transcription.completed\",\"transcript\":\" hi \\n\"\x7d",
      .caller true "\x7b\"event\":\"media\",\"media\":\x7b\"payload\":\"QQ==\"\x7d\x7d",
      .api "\x7b\"type\":\"response.done\",\"response\":\x7b\"output\":[\x7b\"type\":\"message\",\"content\":[\x7b\"type\":\"audio\",\"transcript\":\"hello\"\x7d]\x7d]\x7d\x7d",
      .api "\x7b\"type\":\"conversation.item.input_audio_transcription.completed\",\"transcript\":\" hi \\n\"\x7d" ]
    sampleWorld (by decide)
  obtain ⟨w1, h1, h2⟩ := h
  refine ⟨w1, h1, ?_⟩
  rw [h2]
  decide

/-! ## C4: the text of the agent line -/

/-- C4, counterexample. On a session with an empty transcript, a response whose only content
item has an empty transcript gets the placeholder although a content item carries a transcript
field (the claim makes the line `Agent: ` followed by that empty transcript), and so does a
response whose transcript sits in its second output item (the claim makes the line
`Agent: hi`). -/
theorem agent_text_not_as_claimed :
    (((openAiWs_onMessage sampleEnv "CA1" 0
        "\x7b\"type\":\"response.done\",\"response\":\x7b\"output\":[\x7b\"type\":\"message\",\"content\":[\x7b\"type\":\"audio\",\"transcript\":\"\"\x7d]\x7d]\x7d\x7d"
        sampleWorld).world.heap 0).transcript = "Agent: Agent message not found\n" ∧
      (sampleEnv.JSON_parse (.json (.str
        "\x7b\"type\":\"response.done\",\"response\":\x7b\"output\":[\x7b\"type\":\"message\",\"content\":[\x7b\"type\":\"audio\",\"transcript\":\"\"\x7d]\x7d]\x7d\x7d"))).map
        (claimedAgentLine sampleEnv) = some (.ok "Agent: \n")) ∧
    (((openAiWs_onMessage sampleEnv "CA1" 0
        "\x7b\"type\":\"response.done\",\"response\":\x7b\"output\":[\x7b\"type\":\"function_call\"\x7d,\x7b\"type\":\"message\",\"content\":[\x7b\"type\":\"audio\",\"transcript\":\"hi\"\x7d]\x7d]\x7d\x7d"
        sampleWorld).world.heap 0).transcript = "Agent: Agent message not found\n" ∧
      (sampleEnv.JSON_parse (.json (.str
        "\x7b\"type\":\"response.done\",\"response\":\x7b\"output\":[\x7b\"type\":\"function_call\"\x7d,\x7b\"type\":\"message\",\"content\":[\x7b\"type\":\"audio\",\"transcript\":\"hi\"\x7d]\x7d]\x7d\x7d"))).map
        (claimedAgentLine sampleEnv) = some (.ok "Agent: hi\n")) := by
  decide

theorem findTranscript_eq (parts : List Json) (h : parts.all (fun part => decide (part ≠ .null)) = true) :
    findTranscript parts
      = .ok (match parts.find? hasSpokenTranscript with
          | some part => .json part
          | none => .undefined) := by
  induction parts with
  | nil => rfl
  | cons x rest ih =>
    simp only [List.all_cons, Bool.and_eq_true, decide_eq_true_eq] at h
    obtain ⟨hx, hrest⟩ := h
    unfold findTranscript
    cases x with
    | null => exact absurd rfl hx
    | obj kvs =>
      rw [getProp_obj]
      cases hl : kvs.lookup "transcript" with
      | none => simp [truthy, List.find?, hasSpokenTranscript, Json.field, hl, ih hrest]
      | some t =>
        cases ht : truthy (.json t) <;>
        simp [List.find?, hasSpokenTranscript, Json.field, hl, ht, ih hrest]
    | bool b => simp [getProp, truthy, List.find?, hasSpokenTranscript, Json.field, ih hrest]
    | num n => simp [getProp, truthy, List.find?, hasSpokenTranscript, Json.field, ih hrest]
    | str t => simp [getProp, truthy, List.find?, hasSpokenTranscript, Json.field, ih hrest]
    | arr xs => simp [getProp, truthy, List.find?, hasSpokenTranscript, Json.field, ih hrest]

theorem transcript_of_spoken (part : Json) (h : hasSpokenTranscript part = true) :
    ∃ t, optProp (.json part) "transcript" = .ok (.json t) ∧ truthy (.json t) = true ∧
      (part.field "transcript").getD agentPlaceholder = t := by
  cases part with
  | obj kvs =>
    cases hl : kvs.lookup "transcript" with
    | none => simp [hasSpokenTranscript, Json.field, hl] at h
    | some t =>
      refine ⟨t, ?_, ?_, ?_⟩
      · simp [optProp, getProp, hl]
      · simpa [hasSpokenTranscript, Json.field, hl] using h
      · simp [Json.field, hl]
  | null => simp [hasSpokenTranscript, Json.field] at h
  | bool b => simp [hasSpokenTranscript, Json.field] at h
  | num n => simp [hasSpokenTranscript, Json.field] at h
  | str t => simp [hasSpokenTranscript, Json.field] at h
  | arr xs => simp [hasSpokenTranscript, Json.field] at h

/-- The expression of lines 141-143 on a response whose first output item is well formed. -/
theorem agentMessageOf_eq (kvs rkvs : List (String × Json)) (output : List Json)
    (hresp : kvs.lookup "response" = some (.obj rkvs))
    (hout : rkvs.lookup "output" = some (.arr output))
    (hread : firstOutputReadable output = true) :
    agentMessageOf (.json (.obj kvs)) = .ok (.json (amendedAgentValue output)) := by
  unfold agentMessageOf
  simp only [getProp_obj, hresp, hout, bind, Except.bind]
  cases output with
  | nil => simp [getIndex0, optProp, optFindTranscript, truthy, amendedAgentValue, agentPlaceholder, pure, Except.pure]
  | cons first rest =>
    simp only [getIndex0, amendedAgentValue]
    cases first with
    | obj fkvs =>
      simp only [firstOutputReadable] at hread
      simp only [optProp, getProp_obj, contentItems, Json.field]
      cases hc : fkvs.lookup "content" with
      | none => simp [optFindTranscript, optProp, truthy, agentPlaceholder, pure, Except.pure]
      | some content =>
        rw [hc] at hread
        cases content with
        | arr parts =>
          simp only [] at hread
          simp only [optFindTranscript, findTranscript_eq parts hread]
          cases hf : parts.find? hasSpokenTranscript with
          | none => simp [optProp, truthy, agentPlaceholder, pure, Except.pure]
          | some part =>
            obtain ⟨t, h1, h2, h3⟩ := transcript_of_spoken part (List.find?_some hf)
            simp only [optProp] at h1
            simp only [Json.field] at h3
            simp [h1, h2, h3, pure, Except.pure]
        | null => simp [optFindTranscript, optProp, truthy, agentPlaceholder, pure, Except.pure]
        | bool b => simp at hread
        | num n => simp at hread
        | str t => simp at hread
        | obj o => simp at hread
    | null => simp [optProp, optFindTranscript, truthy, contentItems, Json.field, agentPlaceholder, pure, Except.pure]
    | bool b => simp [optProp, getProp, optFindTranscript, truthy, contentItems, Json.field, agentPlaceholder, pure, Except.pure]
    | num n => simp [optProp, getProp, optFindTranscript, truthy, contentItems, Json.field, agentPlaceholder, pure, Except.pure]
    | str t => simp [optProp, getProp, optFindTranscript, truthy, contentItems, Json.field, agentPlaceholder, pure, Except.pure]
    | arr xs => simp [optProp, getProp, optFindTranscript, truthy, contentItems, Json.field, agentPlaceholder, pure, Except.pure]

/-- The handler `openAiWs.on("message")` never throws. -/
theorem openAiWs_onMessage_returns (env : Env) (sessionId : String) (s : Nat) (data : String)
    (w : World) : (openAiWs_onMessage env sessionId s data w).isThrow = false := by
  obtain ⟨w1, h1, -⟩ := openAiWs_onMessage_summary env sessionId s data w
  rw [h1]; rfl

/-- C4, amended. For a response-completed event whose first output item is well formed, the
handler appends `Agent: <text>` where the text is the string form of the transcript of the
first content item of the first output item (`response.output[0]`) whose transcript is truthy,
the placeholder being substituted when there is no such item; it sends nothing. And on no
message at all does the handler throw. -/
theorem agent_line_text (env : Env) (sessionId : String) (s : Nat) (data : String)
    (kvs rkvs : List (String × Json)) (output : List Json) (text : String) (w : World)
    (hparse : env.JSON_parse (.json (.str data)) = some (.obj kvs))
    (htype : kvs.lookup "type" = some (.str "response.done"))
    (hresp : kvs.lookup "response" = some (.obj rkvs))
    (hout : rkvs.lookup "output" = some (.arr output))
    (hread : firstOutputReadable output = true)
    (htext : toStringJS env (.json (amendedAgentValue output)) = .ok text) :
    (∃ w1, openAiWs_onMessage env sessionId s data w = .ok () w1 ∧
      (w1.heap s).transcript = (w.heap s).transcript ++ ("Agent: " ++ text ++ "\n") ∧
      (w1.heap s).streamSid = (w.heap s).streamSid ∧
      w1.toCaller = w.toCaller ∧ w1.toApi = w.toApi) ∧
    (∀ (data1 : String) (w0 : World),
      (openAiWs_onMessage env sessionId s data1 w0).isThrow = false) := by
  refine ⟨?_, fun data1 w0 => openAiWs_onMessage_returns env sessionId s data1 w0⟩
  obtain ⟨w1, h1, a1, -, -, a4, a5, -⟩ := openAiWs_onMessage_summary env sessionId s data w
  have hline : apiLine env data = "Agent: " ++ text ++ "\n" := by
    unfold apiLine
    simp only [hparse, getProp_obj, htype, strictEqStr_str]
    simp [agentMessageOf_eq kvs rkvs output hresp hout hread, bind, Except.bind, htext]
  have hsends : apiSends env data (w.heap s).streamSid = [] := by
    unfold apiSends
    simp only [hparse, getProp_obj, htype, strictEqStr_str]
    simp
  refine ⟨w1, h1, ?_, ?_, ?_, ?_⟩
  · rw [a1, hline]; simp
  · rw [a1]; simp
  · rw [a5, hsends]; simp
  · rw [a4]; simp

/-- C4, amended, on a response whose first output item says `hello`. -/
theorem agent_line_text_witness :
    ∃ w1, openAiWs_onMessage sampleEnv "CA1" 0
        "\x7b\"type\":\"response.done\",\"response\":\x7b\"output\":[\x7b\"type\":\"message\",\"content\":[\x7b\"type\":\"audio\",\"transcript\":\"hello\"\x7d]\x7d]\x7d\x7d"
        sampleWorld = .ok () w1 ∧
      (w1.heap 0).transcript = "Agent: hello\n" := by
  obtain ⟨⟨w1, h1, h2, -⟩, -⟩ := agent_line_text sampleEnv "CA1" 0
    "\x7b\"type\":\"response.done\",\"response\":\x7b\"output\":[\x7b\"type\":\"message\",\"content\":[\x7b\"type\":\"audio\",\"transcript\":\"hello\"\x7d]\x7d]\x7d\x7d"
    [("type", .str "response.done"),
      ("response", .obj [("output", .arr
        [.obj [("type", .str "message"),
               ("content", .arr [.obj [("type", .str "audio"), ("transcript", .str "hello")]])]])])]
    [("output", .arr
        [.obj [("type", .str "message"),
               ("content", .arr [.obj [("type", .str "audio"), ("transcript", .str "hello")]])]])]
    [.obj [("type", .str "message"),
           ("content", .arr [.obj [("type", .str "audio"), ("transcript", .str "hello")]])]]
    "hello" sampleWorld (by decide) (by decide) (by decide) (by decide) (by decide) (by decide)
  exact ⟨w1, h1, by rw [h2]; decide⟩

/-! ## C5 and C6: the stream identifier of a session -/

theorem eventSid_of_not_start (env : Env) (ev : CallEvent) (h : isStartEvent env ev = false) :
    eventSid env ev = none := by
  cases ev with
  | api data => rfl
  | caller apiOpen message =>
    simp only [isStartEvent] at h
    simp only [eventSid, callerSid]
    cases hp : env.JSON_parse (.json (.str message)) with
    | none => rfl
    | some data =>
      rw [hp] at h
      simp only [] at h ⊢
      cases data with
      | obj kvs =>
        simp only [Json.field, decide_eq_false_iff_not] at h
        rw [getProp_obj]
        simp [strictEqStr_lookup, h]
      | null => simp [getProp]
      | bool b => simp [getProp, strictEqStr]
      | num n => simp [getProp, strictEqStr]
      | str t => simp [getProp, strictEqStr]
      | arr xs => simp [getProp, strictEqStr]

theorem eventSid_of_start (env : Env) (ev : CallEvent) (sid : String)
    (h : startStreamSid env ev = some sid) :
    eventSid env ev = some (.json (.str sid)) ∧ isStartEvent env ev = true := by
  cases ev with
  | api data => simp [startStreamSid] at h
  | caller apiOpen message =>
    simp only [startStreamSid] at h
    simp only [eventSid, callerSid, isStartEvent]
    cases hp : env.JSON_parse (.json (.str message)) with
    | none => simp [hp] at h
    | some data =>
      rw [hp] at h
      simp only [] at h ⊢
      by_cases he : data.field "event" = some (.str "start")
      · simp only [he, if_true] at h
        cases data with
        | obj kvs =>
          simp only [Json.field] at h he
          cases hs : kvs.lookup "start" with
          | none => simp [hs] at h
          | some start =>
            rw [hs] at h
            simp only [] at h
            cases start with
            | obj skvs =>
              simp only [] at h
              cases hq : skvs.lookup "streamSid" with
              | none => simp [hq] at h
              | some v =>
                rw [hq] at h
                cases v <;> simp at h
                subst h
                simp [getProp_obj, strictEqStr_str, he, hs, hq, bind, Except.bind, Json.field]
            | null => simp at h
            | bool b => simp at h
            | num n => simp at h
            | str t => simp at h
            | arr xs => simp at h
        | null => simp [Json.field] at he
        | bool b => simp [Json.field] at he
        | num n => simp [Json.field] at he
        | str t => simp [Json.field] at he
        | arr xs => simp [Json.field] at he
      · simp [he] at h

theorem sessionAfterAll_streamSid (env : Env) (events : List CallEvent)
    (hwf : ∀ ev ∈ events, isStartEvent env ev = true → (startStreamSid env ev).isSome = true) :
    ∀ sess : Session, (sessionAfterAll env sess events).streamSid
      = match lastStartSid env events with
        | some sid => .json (.str sid)
        | none => sess.streamSid := by
  induction events with
  | nil => intro sess; rfl
  | cons ev rest ih =>
    intro sess
    have hrest : ∀ e ∈ rest, isStartEvent env e = true → (startStreamSid env e).isSome = true :=
      fun e he => hwf e (List.mem_cons_of_mem ev he)
    rw [sessionAfterAll_cons, ih hrest]
    simp only [lastStartSid]
    cases hl : lastStartSid env rest with
    | some sid => rfl
    | none =>
      simp only []
      cases hs : startStreamSid env ev with
      | some sid => simp [sessionAfter, (eventSid_of_start env ev sid hs).1]
      | none =>
        have hns : isStartEvent env ev = false := by
          cases hb : isStartEvent env ev with
          | false => rfl
          | true =>
            have := hwf ev (List.mem_cons_self ev rest) hb
            rw [hs] at this
            simp at this
        simp [sessionAfter, eventSid_of_not_start env ev hns]

theorem lastStartSid_isSome (env : Env) (events : List CallEvent) :
    (∃ sid, lastStartSid env events = some sid) ↔ ∃ ev ∈ events, ∃ sid, startStreamSid env ev = some sid := by
  induction events with
  | nil => simp [lastStartSid]
  | cons ev rest ih =>
    simp only [lastStartSid, List.mem_cons, exists_eq_or_imp]
    cases hl : lastStartSid env rest with
    | some sid =>
      have := ih.1 (by rw [hl]; exact ⟨sid, rfl⟩)
      simp only []
      constructor
      · intro _; exact Or.inr this
      · intro _; exact ⟨sid, rfl⟩
    | none =>
      simp only []
      constructor
      · intro h; exact Or.inl h
      · intro h
        rcases h with h | h
        · exact h
        · have := ih.2 h
          rw [hl] at this
          simp at this

/-- C5. When a call connects and the map has no session for it, whatever messages then arrive
on its two sockets (every `start` event among them carrying a stream identifier), the
`streamSid` of its session is set afterwards if and only if a `start` event was among the
caller messages, and it then equals the stream identifier carried by the last such event
(without one it is still `null`). -/
theorem streamSid_set_iff_start (env : Env) (header : Option String) (now : Nat)
    (events : List CallEvent) (w : World)
    (hfresh : Map_get w.sessions (sessionIdOf header now) = none)
    (hwf : ∀ ev ∈ events, isStartEvent env ev = true → (startStreamSid env ev).isSome = true) :
    ∃ s w1 w2, mediaStream_onConnect (sessionIdOf header now) w = .ok s w1 ∧
      onEvents env (sessionIdOf header now) s events w1 = .ok () w2 ∧
      (streamSidSet (w2.heap s).streamSid ↔ ∃ ev ∈ events, isStartEvent env ev = true) ∧
      (w2.heap s).streamSid
        = match lastStartSid env events with
          | some sid => .json (.str sid)
          | none => .json .null := by
  have hconn : mediaStream_onConnect (sessionIdOf header now) w
      = .ok w.nextRef
          { w with
            heap := Function.update w.heap w.nextRef newSession
            nextRef := w.nextRef + 1
            sessions := Map_set w.sessions (sessionIdOf header now) w.nextRef
            log := w.log ++ [{ isError := false, text := "Client connected" }] } := by
    simp [mediaStream_onConnect, bind, consoleLog, hfresh]
  obtain ⟨w2, h2, a1, -⟩ := onEvents_summary env (sessionIdOf header now) w.nextRef events
    { w with
      heap := Function.update w.heap w.nextRef newSession
      nextRef := w.nextRef + 1
      sessions := Map_set w.sessions (sessionIdOf header now) w.nextRef
      log := w.log ++ [{ isError := false, text := "Client connected" }] }
  have hsid : (w2.heap w.nextRef).streamSid
      = match lastStartSid env events with
        | some sid => .json (.str sid)
        | none => .json .null := by
    rw [a1]
    simp only [Function.update_same]
    rw [sessionAfterAll_streamSid env events hwf]
    rfl
  refine ⟨w.nextRef, _, w2, hconn, h2, ?_, hsid⟩
  rw [hsid]
  constructor
  · intro hset
    cases hl : lastStartSid env events with
    | none => rw [hl] at hset; exact absurd rfl hset.1
    | some sid =>
      obtain ⟨ev, hev, sid1, h1⟩ := (lastStartSid_isSome env events).1 ⟨sid, hl⟩
      exact ⟨ev, hev, (eventSid_of_start env ev sid1 h1).2⟩
  · rintro ⟨ev, hev, hstart⟩
    have hsome := hwf ev hev hstart
    obtain ⟨sid1, h1⟩ := Option.isSome_iff_exists.1 hsome
    obtain ⟨sid, hl⟩ := (lastStartSid_isSome env events).2 ⟨ev, hev, sid1, h1⟩
    rw [hl]
    simp [streamSidSet]

/-- C5 on the scenario of the specification: a call connects, the caller sends a `start`
event carrying `SID1` and an audio frame, the speech API answers with an audio delta. The
stream identifier of the session is then `SID1`. -/
theorem streamSid_set_iff_start_witness :
    ∃ s w1 w2, mediaStream_onConnect (sessionIdOf (some "CA1") 0) World.initial = .ok s w1 ∧
      onEvents sampleEnv (sessionIdOf (some "CA1") 0) s
        [ .caller true "\x7b\"event\":\"start\",\"start\":\x7b\"streamSid\":\"SID1\"\x7d\x7d",
          .caller true "\x7b\"event\":\"media\",\"media\":\x7b\"payload\":\"QQ==\"\x7d\x7d",
          .api "\x7b\"type\":\"response.audio.delta\",\"delta\":\"QQ==\"\x7d" ] w1 = .ok () w2 ∧
      streamSidSet (w2.heap s).streamSid ∧
      (w2.heap s).streamSid = .json (.str "SID1") := by
  obtain ⟨s, w1, w2, h1, h2, h3, h4⟩ := streamSid_set_iff_start sampleEnv (some "CA1") 0
    [ .caller true "\x7b\"event\":\"start\",\"start\":\x7b\"streamSid\":\"SID1\"\x7d\x7d",
      .caller true "\x7b\"event\":\"media\",\"media\":\x7b\"payload\":\"QQ==\"\x7d\x7d",
      .api "\x7b\"type\":\"response.audio.delta\",\"delta\":\"QQ==\"\x7d" ]
    World.initial (by decide) (by decide)
  refine ⟨s, w1, w2, h1, h2, h3.2 ⟨_, List.mem_cons_self _ _, by decide⟩, ?_⟩
  rw [h4]
  decide

/-- C6, counterexample. The stream identifier is not write-once: after a `start` event
carrying `SID1` it is `SID1`, and a further `start` event carrying `SID2` changes it to
`SID2`. -/
theorem streamSid_overwritten :
    ((onEvents sampleEnv "CA1" 0
        [ .caller true "\x7b\"event\":\"start\",\"start\":\x7b\"streamSid\":\"SID1\"\x7d\x7d" ]
        World.initial).world.heap 0).streamSid = .json (.str "SID1") ∧
    ((onEvents sampleEnv "CA1" 0
        [ .caller true "\x7b\"event\":\"start\",\"start\":\x7b\"streamSid\":\"SID1\"\x7d\x7d",
          .caller true "\x7b\"event\":\"start\",\"start\":\x7b\"streamSid\":\"SID2\"\x7d\x7d" ]
        World.initial).world.heap 0).streamSid = .json (.str "SID2") ∧
    Val.json (.str "SID2") ≠ Val.json (.str "SID1") := by
  decide

/-- C6, amended. No message on either socket changes the stream identifier of the session
unless it is a `start` event on the caller side: over any sequence of messages without a
`start` event the identifier keeps its value. A `start` event carrying a stream identifier
stores that identifier, whatever was stored before. -/
theorem streamSid_changes_only_on_start (env : Env) (sessionId : String) (s : Nat) (w : World) :
    (∀ events : List CallEvent, (∀ ev ∈ events, isStartEvent env ev = false) →
      ∃ w1, onEvents env sessionId s events w = .ok () w1 ∧
        (w1.heap s).streamSid = (w.heap s).streamSid) ∧
    (∀ (ev : CallEvent) (sid : String), startStreamSid env ev = some sid →
      ∃ w1, onEvent env sessionId s ev w = .ok () w1 ∧
        (w1.heap s).streamSid = .json (.str sid)) := by
  constructor
  · intro events hno
    obtain ⟨w1, h1, a1, -⟩ := onEvents_summary env sessionId s events w
    refine ⟨w1, h1, ?_⟩
    rw [a1]
    simp only [Function.update_same]
    rw [sessionAfterAll_streamSid env events (fun ev hev hstart => by
      rw [hno ev hev] at hstart; exact absurd hstart (by decide))]
    have hnone : lastStartSid env events = none := by
      cases hl : lastStartSid env events with
      | none => rfl
      | some sid =>
        obtain ⟨ev, hev, sid1, h⟩ := (lastStartSid_isSome env events).1 ⟨sid, hl⟩
        have := (eventSid_of_start env ev sid1 h).2
        rw [hno ev hev] at this
        exact absurd this (by decide)
    rw [hnone]
  · intro ev sid hsid
    obtain ⟨w1, h1, a1, -⟩ := onEvent_summary env sessionId s ev w
    refine ⟨w1, h1, ?_⟩
    rw [a1]
    simp [sessionAfter, (eventSid_of_start env ev sid hsid).1]

/-- C6, amended, on a session whose stream identifier is `SID1`: an audio frame, an unknown
caller event, a transcription and an audio delta leave it at `SID1`; a `start` event carrying
`SID2` makes it `SID2`. -/
theorem streamSid_changes_only_on_start_witness :
    (∃ w1, onEvents sampleEnv "CA1" 0
        [ .caller true "\x7b\"event\":\"media\",\"media\":\x7b\"payload\":\"QQ==\"\x7d\x7d",
          .caller true "\x7b\"event\":\"mark\"\x7d",
          .api "\x7b\"type\":\"conversation.item.input_audio_transcription.completed\",\"transcript\":\" hi \\n\"\x7d",
          .api "\x7b\"type\":\"response.audio.delta\",\"delta\":\"QQ==\"\x7d" ] sampleWorld = .ok () w1 ∧
        (w1.heap 0).streamSid = .json (.str "SID1")) ∧
    (∃ w1, onEvent sampleEnv "CA1" 0
        (.caller true "\x7b\"event\":\"start\",\"start\":\x7b\"streamSid\":\"SID2\"\x7d\x7d")
        sampleWorld = .ok () w1 ∧
        (w1.heap 0).streamSid = .json (.str "SID2")) :=
  ⟨(streamSid_changes_only_on_start sampleEnv "CA1" 0 sampleWorld).1 _ (by decide),
   (streamSid_changes_only_on_start sampleEnv "CA1" 0 sampleWorld).2 _ "SID2" (by decide)⟩

/-! ## C7 and C8: the post-call pipeline -/

theorem Res.eq_ok_of_isThrow_false (r : Res Unit) (h : r.isThrow = false) :
    r = .ok () r.world := by
  cases r with
  | ok a w => rfl
  | threw e w => simp [Res.isThrow] at h

/-- C7. When the completion request is answered with a result whose first choice's message
content is not valid JSON, `processTranscriptAndSend` returns normally having issued the
completion request only, so no request to the webhook, and having written an error to the
console; sessions and sockets are untouched. -/
theorem no_webhook_on_parse_failure (env : Env) (net : Network) (transcript sessionId : String)
    (w : World) (status : Nat) (result : Json) (content : Val)
    (hcompletion : net.completion = some { status := status, body := some result })
    (hcontent : messageContent (.json result) = .ok content)
    (hparse : env.JSON_parse content = none) :
    ∃ w1, processTranscriptAndSend env net transcript sessionId w = .ok () w1 ∧
      w1.http = w.http ++ [completionFetch transcript] ∧
      (completionFetch transcript).url ≠ WEBHOOK_URL ∧
      (∃ logs, w1.log = w.log ++ logs ∧ ∃ entry ∈ logs, entry.isError = true) ∧
      w1.heap = w.heap ∧ w1.sessions = w.sessions ∧ w1.toApi = w.toApi ∧
      w1.toCaller = w.toCaller := by
  have hurl : (completionFetch transcript).url ≠ WEBHOOK_URL := by
    show "https://api.openai.com/v1/chat/completions" ≠ WEBHOOK_URL
    decide
  have key : (processTranscriptAndSend env net transcript sessionId w).isThrow = false ∧
      (processTranscriptAndSend env net transcript sessionId w).world.http
        = w.http ++ [completionFetch transcript] ∧
      (∃ logs, (processTranscriptAndSend env net transcript sessionId w).world.log
        = w.log ++ logs ∧ ∃ entry ∈ logs, entry.isError = true) ∧
      (processTranscriptAndSend env net transcript sessionId w).world.heap = w.heap ∧
      (processTranscriptAndSend env net transcript sessionId w).world.sessions = w.sessions ∧
      (processTranscriptAndSend env net transcript sessionId w).world.toApi = w.toApi ∧
      (processTranscriptAndSend env net transcript sessionId w).world.toCaller = w.toCaller := by
    cases hh : hasMessageContent (.json result) with
    | error e =>
      simp [processTranscriptAndSend, makeChatGPTCompletion, tryCatch, bind, liftM, monadLift,
        MonadLift.monadLift, liftExcept, hcompletion, hh, consoleLog, consoleError, issueFetch,
        pure, Res.world, Res.isThrow, completionFetch]
    | ok b =>
      cases b <;>
      simp [processTranscriptAndSend, makeChatGPTCompletion, tryCatch, bind, liftM, monadLift,
        MonadLift.monadLift, liftExcept, hcompletion, hh, hcontent, JSON_parse, hparse,
        consoleLog, consoleError, issueFetch, pure, Res.world, Res.isThrow, completionFetch]
  obtain ⟨k1, k2, k3, k4, k5, k6, k7⟩ := key
  exact ⟨_, Res.eq_ok_of_isThrow_false _ k1, k2, hurl, k3, k4, k5, k6, k7⟩

/-- C7 on a completion that answers in prose: only the completion request is issued. -/
theorem no_webhook_on_parse_failure_witness :
    ∃ w1, processTranscriptAndSend sampleEnv (sampleNetwork (sampleCompletion "Sorry, no."))
        "User: hi\nAgent: hello\n" "CA1" sampleWorld = .ok () w1 ∧
      w1.http = [completionFetch "User: hi\nAgent: hello\n"] := by
  obtain ⟨w1, h1, h2, -⟩ := no_webhook_on_parse_failure sampleEnv
    (sampleNetwork (sampleCompletion "Sorry, no.")) "User: hi\nAgent: hello\n" "CA1" sampleWorld
    200 (sampleCompletion "Sorry, no.") (.json (.str "Sorry, no.")) rfl (by decide) (by decide)
  exact ⟨w1, h1, by rw [h2]; rfl⟩

/-- C8. When the completion request is answered with a result whose first choice's message
content is a JSON text for an object, `processTranscriptAndSend` returns normally having issued,
after the completion request, exactly one more request: a POST to the fixed webhook address
whose body is the parsed object itself; this whatever the webhook answers. The completion
request goes to another address, so the webhook is posted to exactly once. -/
theorem webhook_gets_parsed_object (env : Env) (net : Network) (transcript sessionId : String)
    (w : World) (status : Nat) (rkvs ckvs mkvs : List (String × Json)) (rest : List Json)
    (text : String) (fields : List (String × Json))
    (hcompletion : net.completion = some { status := status, body := some (.obj rkvs) })
    (hchoices : rkvs.lookup "choices" = some (.arr (.obj ckvs :: rest)))
    (hmessage : ckvs.lookup "message" = some (.obj mkvs))
    (hcontent : mkvs.lookup "content" = some (.str text))
    (hne : text ≠ "")
    (hparse : env.JSON_parse (.json (.str text)) = some (.obj fields)) :
    ∃ w1, processTranscriptAndSend env net transcript sessionId w = .ok () w1 ∧
      w1.http = w.http ++
        [ completionFetch transcript,
          { url := WEBHOOK_URL, method := "POST", body := .obj fields } ] ∧
      (completionFetch transcript).url ≠ WEBHOOK_URL := by
  have hurl : (completionFetch transcript).url ≠ WEBHOOK_URL := by
    show "https://api.openai.com/v1/chat/completions" ≠ WEBHOOK_URL
    decide
  have key : (processTranscriptAndSend env net transcript sessionId w).isThrow = false ∧
      (processTranscriptAndSend env net transcript sessionId w).world.http
        = w.http ++ [ completionFetch transcript,
            { url := WEBHOOK_URL, method := "POST", body := .obj fields } ] := by
    cases hw : net.webhook with
    | none =>
      simp [processTranscriptAndSend, makeChatGPTCompletion, sendToWebhook, tryCatch, bind, liftM,
        monadLift, MonadLift.monadLift, liftExcept, hcompletion, hasMessageContent, messageContent,
        getProp, getIndex0, hchoices, hmessage, hcontent, truthy, hne, JSON_parse, hparse, hw,
        consoleLog, consoleError, issueFetch, throwJs, pure, Except.pure, Except.bind, Res.world,
        Res.isThrow, completionFetch]
    | some response =>
      by_cases hs : 200 ≤ response.status ∧ response.status ≤ 299 <;>
      simp [processTranscriptAndSend, makeChatGPTCompletion, sendToWebhook, tryCatch, bind, liftM,
        monadLift, MonadLift.monadLift, liftExcept, hcompletion, hasMessageContent, messageContent,
        getProp, getIndex0, hchoices, hmessage, hcontent, truthy, hne, JSON_parse, hparse, hw, hs,
        consoleLog, consoleError, issueFetch, throwJs, pure, Except.pure, Except.bind, Res.world,
        Res.isThrow, completionFetch]
  exact ⟨_, Res.eq_ok_of_isThrow_false _ key.1, key.2, hurl⟩

/-- C8 on the scenario of the specification: the transcript `User: hi`, `Agent: hello`, a
completion whose content is a JSON object with the three fields. -/
theorem webhook_gets_parsed_object_witness :
    ∃ w1, processTranscriptAndSend sampleEnv
        (sampleNetwork (sampleCompletion
          "\x7b\"customerName\":\"Ann\",\"customerAvailability\":\"Monday\",\"specialNotes\":\"none\"\x7d"))
        "User: hi\nAgent: hello\n" "CA1" sampleWorld = .ok () w1 ∧
      w1.http = sampleWorld.http ++
        [ completionFetch "User: hi\nAgent: hello\n",
          { url := WEBHOOK_URL, method := "POST",
            body := .obj [("customerName", .str "Ann"), ("customerAvailability", .str "Monday"),
              ("specialNotes", .str "none")] } ] ∧
      (completionFetch "User: hi\nAgent: hello\n").url ≠ WEBHOOK_URL :=
  webhook_gets_parsed_object sampleEnv _ "User: hi\nAgent: hello\n" "CA1" sampleWorld 200
    [("choices", .arr [.obj [("message", .obj [("role", .str "assistant"), ("content", .str
      "\x7b\"customerName\":\"Ann\",\"customerAvailability\":\"Monday\",\"specialNotes\":\"none\"\x7d")])]])]
    [("message", .obj [("role", .str "assistant"), ("content", .str
      "\x7b\"customerName\":\"Ann\",\"customerAvailability\":\"Monday\",\"specialNotes\":\"none\"\x7d")])]
    [("role", .str "assistant"), ("content", .str
      "\x7b\"customerName\":\"Ann\",\"customerAvailability\":\"Monday\",\"specialNotes\":\"none\"\x7d")]
    []
    "\x7b\"customerName\":\"Ann\",\"customerAvailability\":\"Monday\",\"specialNotes\":\"none\"\x7d"
    [("customerName", .str "Ann"), ("customerAvailability", .str "Monday"),
      ("specialNotes", .str "none")]
    rfl (by decide) (by decide) (by decide) (by decide) (by decide)

/-! ## C9: a message whose processing fails is dropped -/

theorem World.sameButLog_of_stepped {w w1 w2 : World} {s : Nat} {sess : Session}
    {toApi toCaller : List Json} (h1 : World.stepped w w1 s sess toApi toCaller)
    (h2 : World.stepped w w2 s sess toApi toCaller) : w1.sameButLog w2 := by
  obtain ⟨a1, a2, a3, a4, a5, a6⟩ := h1
  obtain ⟨b1, b2, b3, b4, b5, b6⟩ := h2
  exact ⟨a1.trans b1.symm, a2.trans b2.symm, a3.trans b3.symm, a4.trans b4.symm,
    a5.trans b5.symm, a6.trans b6.symm⟩

/-- A message whose processing throws adds no line, stores no stream identifier and sends
nothing. -/
theorem failed_event_is_inert (env : Env) (sessionId : String) (s : Nat) (ev : CallEvent)
    (w : World) (hfail : (onEvent_try env sessionId s ev w).isThrow = true) :
    eventLine env ev = "" ∧ eventSid env ev = none ∧ eventToApi env ev = [] ∧
      ∀ v, eventToCaller env v ev = [] := by
  cases ev with
  | caller apiOpen message =>
    obtain ⟨h1, h2⟩ := (connection_onMessage_try_summary env s apiOpen message w).2 hfail
    exact ⟨rfl, h1, h2, fun _ => rfl⟩
  | api data =>
    obtain ⟨h1, h2⟩ := (openAiWs_onMessage_try_summary env sessionId s data w).2 hfail
    exact ⟨h1, rfl, rfl, h2⟩

/-- C9. When the processing of a message on either socket fails (the body of the handler
throws), the handler still returns normally and leaves the world as it was apart from the
console output: no message is forwarded and the session is unchanged. The messages that follow
are then processed as if the failed one had never arrived: with or without it in front, the
handlers end in worlds that differ at most in the console output. -/
theorem failed_message_is_dropped (env : Env) (sessionId : String) (s : Nat) (ev : CallEvent)
    (w : World) (hfail : (onEvent_try env sessionId s ev w).isThrow = true) :
    (∃ w1, onEvent env sessionId s ev w = .ok () w1 ∧ w1.sameButLog w) ∧
    (∀ rest : List CallEvent, ∃ w1 w2,
      onEvents env sessionId s (ev :: rest) w = .ok () w1 ∧
      onEvents env sessionId s rest w = .ok () w2 ∧ w1.sameButLog w2) := by
  obtain ⟨hline, hsid, hapi, hcaller⟩ := failed_event_is_inert env sessionId s ev w hfail
  obtain ⟨w1, h1, a1, a2, a3, a4, a5, a6⟩ := onEvent_summary env sessionId s ev w
  have hsame : w1.sameButLog w := by
    refine ⟨?_, a2, a3, ?_, ?_, a6⟩
    · rw [a1]
      simp only [sessionAfter, hline, hsid, Option.getD_none]
      exact update_session_self w.heap s
    · rw [a4, hapi]; simp
    · rw [a5, hcaller]; simp
  refine ⟨⟨w1, h1, hsame⟩, fun rest => ?_⟩
  obtain ⟨w2, h2, b⟩ := onEvents_summary env sessionId s rest w1
  obtain ⟨w3, h3, c⟩ := onEvents_summary env sessionId s rest w
  refine ⟨w2, w3, ?_, h3, ?_⟩
  · show (onEvent env sessionId s ev >>= fun _ => onEvents env sessionId s rest) w = _
    rw [Eff.bind_def, h1]; exact h2
  · obtain ⟨e1, e2, e3, e4, e5, e6⟩ := hsame
    obtain ⟨b1, b2, b3, b4, b5, b6⟩ := b
    obtain ⟨c1, c2, c3, c4, c5, c6⟩ := c
    refine ⟨?_, ?_, ?_, ?_, ?_, ?_⟩
    · rw [b1, c1, e1]
    · rw [b2, c2, e2]
    · rw [b3, c3, e3]
    · rw [b4, c4, e4]
    · rw [b5, c5, e5, e1]
    · rw [b6, c6, e6]

/-- C9 on a caller message that is no JSON text, followed by a `start` event: the bad message
is dropped, and the `start` event is processed as it would be alone. -/
theorem failed_message_is_dropped_witness :
    (∃ w1, onEvent sampleEnv "CA1" 0 (.caller true "not json") sampleWorld = .ok () w1 ∧
      w1.sameButLog sampleWorld) ∧
    (∃ w1 w2,
      onEvents sampleEnv "CA1" 0
        [ .caller true "not json",
          .caller true "\x7b\"event\":\"start\",\"start\":\x7b\"streamSid\":\"SID2\"\x7d\x7d" ]
        sampleWorld = .ok () w1 ∧
      onEvents sampleEnv "CA1" 0
        [ .caller true "\x7b\"event\":\"start\",\"start\":\x7b\"streamSid\":\"SID2\"\x7d\x7d" ]
        sampleWorld = .ok () w2 ∧ w1.sameButLog w2) :=
  ⟨(failed_message_is_dropped sampleEnv "CA1" 0 (.caller true "not json") sampleWorld
      (by decide)).1,
   (failed_message_is_dropped sampleEnv "CA1" 0 (.caller true "not json") sampleWorld
      (by decide)).2 _⟩

/-! ## C10: no session is left in the map -/

theorem Map_get_delete (m : List (String × Nat)) (key : String) :
    Map_get (Map_delete m key) key = none := by
  unfold Map_get Map_delete
  rw [List.lookup_eq_none_iff]
  intro p hp
  have h := (List.mem_filter.1 hp).2
  simp only [bne_iff_ne, ne_eq] at h ⊢
  exact fun e => h e.symm

/-- The function `processTranscriptAndSend` never throws, and touches neither the sessions nor
the sockets. -/
theorem processTranscriptAndSend_returns (env : Env) (net : Network)
    (transcript sessionId : String) (w : World) :
    ∃ w1, processTranscriptAndSend env net transcript sessionId w = .ok () w1 ∧
      w1.heap = w.heap ∧ w1.nextRef = w.nextRef ∧ w1.sessions = w.sessions ∧
      w1.toApi = w.toApi ∧ w1.toCaller = w.toCaller := by
  have key : (processTranscriptAndSend env net transcript sessionId w).isThrow = false ∧
      (processTranscriptAndSend env net transcript sessionId w).world.heap = w.heap ∧
      (processTranscriptAndSend env net transcript sessionId w).world.nextRef = w.nextRef ∧
      (processTranscriptAndSend env net transcript sessionId w).world.sessions = w.sessions ∧
      (processTranscriptAndSend env net transcript sessionId w).world.toApi = w.toApi ∧
      (processTranscriptAndSend env net transcript sessionId w).world.toCaller = w.toCaller := by
    cases hc : net.completion with
    | none => simp [processTranscriptAndSend, makeChatGPTCompletion, sendToWebhook, tryCatch, bind, liftM,
        monadLift, MonadLift.monadLift, liftExcept, consoleLog, issueFetch, consoleError, throwJs,
        pure, JSON_parse, Res.world, Res.isThrow, hc]
    | some response =>
      cases hb : response.body with
      | none => simp [processTranscriptAndSend, makeChatGPTCompletion, sendToWebhook, tryCatch, bind, liftM,
        monadLift, MonadLift.monadLift, liftExcept, consoleLog, issueFetch, consoleError, throwJs,
        pure, JSON_parse, Res.world, Res.isThrow, hc, hb]
      | some result =>
        cases hh : hasMessageContent (.json result) with
        | error e => simp [processTranscriptAndSend, makeChatGPTCompletion, sendToWebhook, tryCatch, bind, liftM,
        monadLift, MonadLift.monadLift, liftExcept, consoleLog, issueFetch, consoleError, throwJs,
        pure, JSON_parse, Res.world, Res.isThrow, hc, hb, hh]
        | ok b =>
          cases b with
          | false => simp [processTranscriptAndSend, makeChatGPTCompletion, sendToWebhook, tryCatch, bind, liftM,
        monadLift, MonadLift.monadLift, liftExcept, consoleLog, issueFetch, consoleError, throwJs,
        pure, JSON_parse, Res.world, Res.isThrow, hc, hb, hh]
          | true =>
            cases hm : messageContent (.json result) with
            | error e => simp [processTranscriptAndSend, makeChatGPTCompletion, sendToWebhook, tryCatch, bind, liftM,
        monadLift, MonadLift.monadLift, liftExcept, consoleLog, issueFetch, consoleError, throwJs,
        pure, JSON_parse, Res.world, Res.isThrow, hc, hb, hh, hm]
            | ok content =>
              cases hp : env.JSON_parse content with
              | none => simp [processTranscriptAndSend, makeChatGPTCompletion, sendToWebhook, tryCatch, bind, liftM,
        monadLift, MonadLift.monadLift, liftExcept, consoleLog, issueFetch, consoleError, throwJs,
        pure, JSON_parse, Res.world, Res.isThrow, hc, hb, hh, hm, hp]
              | some parsed =>
                cases ht : truthy (.json parsed) with
                | false => simp [processTranscriptAndSend, makeChatGPTCompletion, sendToWebhook, tryCatch, bind, liftM,
        monadLift, MonadLift.monadLift, liftExcept, consoleLog, issueFetch, consoleError, throwJs,
        pure, JSON_parse, Res.world, Res.isThrow, hc, hb, hh, hm, hp, ht]
                | true =>
                  cases hw : net.webhook with
                  | none => simp [processTranscriptAndSend, makeChatGPTCompletion, sendToWebhook, tryCatch, bind, liftM,
        monadLift, MonadLift.monadLift, liftExcept, consoleLog, issueFetch, consoleError, throwJs,
        pure, JSON_parse, Res.world, Res.isThrow, hc, hb, hh, hm, hp, ht, hw]
                  | some answer =>
                    by_cases hs : 200 ≤ answer.status ∧ answer.status ≤ 299 <;>
                    simp [processTranscriptAndSend, makeChatGPTCompletion, sendToWebhook, tryCatch, bind, liftM,
        monadLift, MonadLift.monadLift, liftExcept, consoleLog, issueFetch, consoleError, throwJs,
        pure, JSON_parse, Res.world, Res.isThrow, hc, hb, hh, hm, hp, ht, hw, hs]
  obtain ⟨k1, k2, k3, k4, k5, k6⟩ := key
  exact ⟨_, Res.eq_ok_of_isThrow_false _ k1, k2, k3, k4, k5, k6⟩

/-- What `connection.on("close")` does: it returns normally and removes the entry of the call
from the map. -/
theorem connection_onClose_summary (env : Env) (net : Network) (sessionId : String) (s : Nat)
    (w : World) :
    ∃ w1, connection_onClose env net sessionId s w = .ok () w1 ∧
      w1.sessions = Map_delete w.sessions sessionId := by
  obtain ⟨w1, h1, -, -, h3, -⟩ := processTranscriptAndSend_returns env net
    (w.heap s).transcript sessionId
    { w with log := w.log ++
        [ { isError := false, text := "Client disconnected (" ++ sessionId ++ ")." },
          { isError := false, text := "Full Transcript:" },
          { isError := false, text := (w.heap s).transcript } ] }
  refine ⟨{ w1 with sessions := Map_delete w1.sessions sessionId }, ?_, ?_⟩
  · simp [connection_onClose, bind, consoleLog, readSession, h1]
  · simp [h3]

/-- C10. Once the close handler of a connection has run, it has returned normally and the map
holds no entry for the identifier of the call, whatever the completion request, the parsing of
its answer and the webhook request did. A whole call that starts in a process with an empty map
leaves the map empty. -/
theorem no_session_left (env : Env) (net : Network) :
    (∀ (sessionId : String) (s : Nat) (w : World),
      ∃ w1, connection_onClose env net sessionId s w = .ok () w1 ∧
        Map_get w1.sessions sessionId = none) ∧
    (∀ (header : Option String) (now : Nat) (events : List CallEvent),
      ∃ w1, runCall env net header now events World.initial = .ok () w1 ∧
        Map_size w1.sessions = 0) := by
  constructor
  · intro sessionId s w
    obtain ⟨w1, h1, h2⟩ := connection_onClose_summary env net sessionId s w
    exact ⟨w1, h1, by rw [h2]; exact Map_get_delete _ _⟩
  · intro header now events
    have hconn : mediaStream_onConnect (sessionIdOf header now) World.initial
        = .ok 0
            { World.initial with
              heap := Function.update World.initial.heap 0 newSession
              nextRef := 1
              sessions := [(sessionIdOf header now, 0)]
              log := [{ isError := false, text := "Client connected" }] } := by
      simp [mediaStream_onConnect, bind, consoleLog, World.initial, Map_get, Map_set]
    obtain ⟨w2, h2, -, -, a3, -⟩ := onEvents_summary env (sessionIdOf header now) 0 events
      { World.initial with
        heap := Function.update World.initial.heap 0 newSession
        nextRef := 1
        sessions := [(sessionIdOf header now, 0)]
        log := [{ isError := false, text := "Client connected" }] }
    obtain ⟨w3, h3, b⟩ := connection_onClose_summary env net (sessionIdOf header now) 0 w2
    refine ⟨w3, ?_, ?_⟩
    · show (mediaStream_onConnect (sessionIdOf header now) >>= fun session =>
        (onEvents env (sessionIdOf header now) session events >>= fun _ =>
          connection_onClose env net (sessionIdOf header now) session)) World.initial = _
      rw [Eff.bind_def, hconn]
      simp only []
      rw [Eff.bind_def, h2]
      exact h3
    · rw [b, a3]
      simp [Map_delete, Map_size]

end DdsAgent
